import Mathlib

/-!
# Verification of the inventory-fields backfill jobs

Shallow embedding of the backfill scripts of this repository:

* `src/backfill_inventory_fields.py` — combined deleted_at + created_at job
  (phase 1 cursor scan over the source table, phase 2 index reconciliation),
* `src/backfill_deleted_at.py` — deleted_at-only job,
* `src/utils/db.py`, `src/utils/typesense_client.py`, `src/utils/checkpoint.py` —
  the source reader, the index writer and the checkpoint store.

External collaborators (PostgreSQL, Typesense, MongoDB) are modelled as pure
state: the source table is a list of rows kept in the order the SQL
`ORDER BY id` would return (ids compared with the lexicographic string order),
the search index is a list of documents, and the checkpoint store holds one
checkpoint record.  Loops are written with explicit fuel; every definition is
executable.
-/

namespace Backfill

/-! ## Python values reaching `created_at_to_timestamp`

The `created_at` column value handed to the transformation rule.  A Python
float is either a finite value (represented exactly as a rational; the binary
rounding of a literal does not matter for any integer-truncation fact proved
here) or one of the non-finite values `nan`, `inf`, `-inf`.  A Python object
other than `None`/`int`/`float`/`str` is modelled by whether it has a
`timestamp` attribute and, when it does, what evaluating
`value.timestamp()` does: return a float (possibly non-finite), or raise —
a non-callable `timestamp` attribute raises `TypeError`, and a raising
accessor propagates its own exception. -/

inductive PyFloat where
  | finite (x : Rat)
  | nan
  | inf
  | ninf
deriving DecidableEq, Repr

def PyFloat.isFinite : PyFloat → Bool
  | .finite _ => true
  | _ => false

/-- Exceptions the transformation can raise: `int(nan)` raises `ValueError`,
`int(inf)` / `int(-inf)` raise `OverflowError`, calling a non-callable
`timestamp` attribute raises `TypeError`. -/
inductive PyError where
  | valueError
  | overflowError
  | typeError
deriving DecidableEq, Repr

/-- Outcome of evaluating `value.timestamp()` on an object that has a
`timestamp` attribute: a float result (a `datetime`'s accessor returns a
float, which may be non-finite), or an exception (`TypeError` for a
non-callable attribute, or whatever the accessor itself raises). -/
inductive TimestampAttr where
  | float (f : PyFloat)
  | raises (e : PyError)
deriving DecidableEq, Repr

def TimestampAttr.isFinite : TimestampAttr → Bool
  | .float f => f.isFinite
  | .raises _ => false

inductive Value where
  | none
  | int (n : Int)
  | float (f : PyFloat)
  | str (s : String)
  | obj (ts : Option TimestampAttr)
deriving DecidableEq, Repr

/-- Python `int()` truncation of a finite float toward zero. -/
def ratTrunc (x : Rat) : Int :=
  if 0 ≤ x.num then ((x.num.natAbs / x.den : Nat) : Int)
  else -((x.num.natAbs / x.den : Nat) : Int)

/-! ## `datetime.fromisoformat(...).timestamp()`

Model of the Python standard-library calls made by the string branch of
`created_at_to_timestamp`, restricted to the ISO-8601 shapes this repository
exercises: `YYYY-MM-DD` and `YYYY-MM-DDTHH:MM:SS`, optionally followed by a
`±HH:MM` UTC offset (a trailing `Z` has already been rewritten to `+00:00`
by `value.replace("Z", "+00:00")` before parsing).  A naive datetime's
`timestamp()` uses the process's local timezone; the model fixes that
timezone to UTC.  Any other string shape parses to `Option.none` and is
mapped to the fallback by the caller, exactly as the `except` branch does. -/

def digitVal (c : Char) : Option Nat :=
  if c.isDigit then some (c.toNat - 48) else Option.none

def readFixedNat : Nat → Nat → List Char → Option (Nat × List Char)
  | 0, acc, cs => some (acc, cs)
  | k + 1, acc, cs =>
    match cs with
    | [] => Option.none
    | c :: rest =>
      match digitVal c with
      | some d => readFixedNat k (acc * 10 + d) rest
      | Option.none => Option.none

def expectChar (c : Char) : List Char → Option (List Char)
  | x :: rest => if x = c then some rest else Option.none
  | [] => Option.none

def isLeapYear (y : Nat) : Bool :=
  (y % 4 == 0 && y % 100 != 0) || y % 400 == 0

def daysInMonth (y m : Nat) : Nat :=
  if m = 2 then (if isLeapYear y then 29 else 28)
  else if m = 4 ∨ m = 6 ∨ m = 9 ∨ m = 11 then 30
  else 31

/-- Days contributed by the months of year `y` strictly before month `m`. -/
def daysBeforeMonth (y m : Nat) : Nat :=
  (List.range (m - 1)).foldl (fun acc i => acc + daysInMonth y (i + 1)) 0

/-- Proleptic-Gregorian ordinal of a date (1-01-01 has ordinal 1), as in
Python's `date.toordinal`. -/
def toOrdinal (y m d : Nat) : Nat :=
  (y - 1) * 365 + (y - 1) / 4 - (y - 1) / 100 + (y - 1) / 400 + daysBeforeMonth y m + d

/-- Ordinal of 1970-01-01, the Unix epoch. -/
def EPOCH_ORDINAL : Nat := 719163

/-- Epoch seconds of a date-time with the given offset-seconds (0 for a naive
datetime, whose local timezone is modelled as UTC). -/
def epochSeconds (y m d hh mi ss : Nat) (offset : Int) : Int :=
  ((toOrdinal y m d : Int) - (EPOCH_ORDINAL : Int)) * 86400
    + (hh : Int) * 3600 + (mi : Int) * 60 + (ss : Int) - offset

def parseOffset (cs : List Char) : Option Int := do
  match cs with
  | sign :: rest =>
    if sign = '+' ∨ sign = '-' then do
      let (oh, rest) ← readFixedNat 2 0 rest
      let rest ← expectChar ':' rest
      let (om, rest) ← readFixedNat 2 0 rest
      if rest = [] ∧ oh ≤ 23 ∧ om ≤ 59 then
        let total : Int := (oh : Int) * 3600 + (om : Int) * 60
        some (if sign = '-' then -total else total)
      else Option.none
    else Option.none
  | [] => Option.none

def parseIso (cs : List Char) : Option Int := do
  let (y, cs) ← readFixedNat 4 0 cs
  let cs ← expectChar '-' cs
  let (m, cs) ← readFixedNat 2 0 cs
  let cs ← expectChar '-' cs
  let (d, cs) ← readFixedNat 2 0 cs
  if y < 1 ∨ 9999 < y ∨ m < 1 ∨ 12 < m ∨ d < 1 ∨ daysInMonth y m < d then Option.none
  else
    match cs with
    | [] => some (epochSeconds y m d 0 0 0 0)
    | sep :: cs =>
      if sep = 'T' then do
        let (hh, cs) ← readFixedNat 2 0 cs
        let cs ← expectChar ':' cs
        let (mi, cs) ← readFixedNat 2 0 cs
        let cs ← expectChar ':' cs
        let (ss, cs) ← readFixedNat 2 0 cs
        if 23 < hh ∨ 59 < mi ∨ 59 < ss then Option.none
        else
          match cs with
          | [] => some (epochSeconds y m d hh mi ss 0)
          | _ => do
            let off ← parseOffset cs
            some (epochSeconds y m d hh mi ss off)
      else Option.none

/-- `datetime.fromisoformat(s).timestamp()` as an integer number of epoch
seconds, `Option.none` when parsing fails. -/
def parseIsoTimestamp (s : String) : Option Int :=
  parseIso s.data

def DEFAULT_CREATED_AT : Int := 0
def DEFAULT_DELETED_AT : Int := 0

/-- `value.replace("Z", "+00:00")` for the one-character pattern `"Z"`: every
occurrence of `'Z'` is rewritten (Python's `str.replace` replaces all
occurrences).  Written as structural recursion over the characters so the
kernel can evaluate it. -/
def replaceZChars : List Char → List Char
  | [] => []
  | c :: rest =>
    if c = 'Z' then '+' :: '0' :: '0' :: ':' :: '0' :: '0' :: replaceZChars rest
    else c :: replaceZChars rest

def pyReplaceZ (s : String) : String := String.mk (replaceZChars s.data)

/-- `created_at_to_timestamp` from `src/backfill_inventory_fields.py` (the
function in `src/backfill_created_at_from_supabase.py` is textually
identical).  The result is `Except` because two branches run `int(...)`
outside any `try`: the float branch's `int(value)` raises `ValueError` on
`nan` and `OverflowError` on `±inf`, and the object branch's
`int(value.timestamp())` behaves the same way on a non-finite accessor
result and propagates the accessor's own exception (for example `TypeError`
for a non-callable `timestamp` attribute).  The string branch is wrapped in
`try/except` and falls back to the default on any parse failure. -/
def created_at_to_timestamp (value : Value) : Except PyError Int :=
  match value with
  | .none => .ok DEFAULT_CREATED_AT
  | .int n => .ok n
  | .float (.finite x) => .ok (ratTrunc x)
  | .float .nan => .error .valueError
  | .float .inf => .error .overflowError
  | .float .ninf => .error .overflowError
  | .str s =>
    match parseIsoTimestamp (pyReplaceZ s) with
    | some ts => .ok ts
    | Option.none => .ok DEFAULT_CREATED_AT
  | .obj (some (.float (.finite x))) => .ok (ratTrunc x)
  | .obj (some (.float .nan)) => .error .valueError
  | .obj (some (.float .inf)) => .error .overflowError
  | .obj (some (.float .ninf)) => .error .overflowError
  | .obj (some (.raises e)) => .error e
  | .obj Option.none => .ok DEFAULT_CREATED_AT

/-- Total wrapper used when modelling the engine loops: the engine is run on
row values for which the transformation does not raise; an error outcome is
mapped to the fallback here so the loop model stays total, and the raising
behaviour itself is settled on `created_at_to_timestamp` directly. -/
def created_at_ts (value : Value) : Int :=
  match created_at_to_timestamp value with
  | .ok n => n
  | .error _ => 0

/-! ## Source reader (`src/utils/db.py`)

The `public.products` table is a list of rows kept in the order the SQL
`ORDER BY id` returns.  The database's ordering of the text primary key is
modelled by lexicographic comparison of the characters, written out as a
structural recursion (`idLt`) so that every proof can evaluate it. -/

def charListLt : List Char → List Char → Bool
  | [], [] => false
  | [], _ :: _ => true
  | _ :: _, [] => false
  | a :: as, b :: bs =>
    if a < b then true
    else if b < a then false
    else charListLt as bs

/-- The strict order on ids used by `WHERE id > %s` and `ORDER BY id`. -/
def idLt (a b : String) : Bool := charListLt a.data b.data

/-- The reflexive closure of `idLt`. -/
def idLe (a b : String) : Prop := idLt a b = true ∨ a = b

structure Row where
  id : String
  deleted_at : Option Int
  created_at : Value
deriving DecidableEq, Repr

/-- `fetch_products_batch`: with an empty cursor the query has no `WHERE`
clause, otherwise only ids strictly greater than the cursor are returned;
both are limited to `batch_size` rows. -/
def fetch_products_batch (products : List Row) (last_id : String) (batch_size : Nat) : List Row :=
  if last_id = "" then products.take batch_size
  else (products.filter (fun r => idLt last_id r.id)).take batch_size

/-- `update_products_deleted_at`: sets `deleted_at = value` for the given ids
and returns the updated table together with the SQL row count. -/
def update_products_deleted_at (products : List Row) (product_ids : List String) (value : Int) :
    List Row × Nat :=
  (products.map (fun r => if r.id ∈ product_ids then { r with deleted_at := some value } else r),
   (products.filter (fun r => decide (r.id ∈ product_ids))).length)

/-- `ids_exists_in_products`: the subset of `ids` present in the table
(returned as a list used only through membership, modelling the Python set). -/
def ids_exists_in_products (products : List Row) (ids : List String) : List String :=
  ids.filter (fun i => decide (i ∈ products.map Row.id))

/-! ## Index writer (`src/utils/typesense_client.py`) -/

structure Doc where
  id : String
  created_at : Option Int
  deleted_at : Option Int
deriving DecidableEq, Repr

/-- The partial-document update dict sent to the index: each field is present
(`some v`, setting the field to `v`) or absent (left unchanged). -/
structure FieldUpdate where
  created_at : Option Int
  deleted_at : Option Int
deriving DecidableEq, Repr

inductive TsException where
  | objectNotFound
  | otherError
deriving DecidableEq, Repr

def overrideField (new old : Option Int) : Option Int :=
  match new with
  | some v => some v
  | Option.none => old

def applyFields (d : Doc) (f : FieldUpdate) : Doc :=
  { d with
    created_at := overrideField f.created_at d.created_at
    deleted_at := overrideField f.deleted_at d.deleted_at }

/-- The raw vendor call `collections[...].documents[doc_id].update(fields)`:
updates the document when it exists, raises `ObjectNotFound` otherwise. -/
def documents_update (index : List Doc) (doc_id : String) (fields : FieldUpdate) :
    Except TsException (List Doc) :=
  if doc_id ∈ index.map Doc.id then
    .ok (index.map (fun d => if d.id = doc_id then applyFields d fields else d))
  else .error .objectNotFound

/-- The `try/except` body of `update_document_ignore_not_found`: a successful
raw update returns the new index and `True`; `ObjectNotFound` and any other
exception are both caught and mapped to `False`. -/
def ignore_not_found_catch (raw : Except TsException (List Doc)) (index : List Doc) :
    List Doc × Bool :=
  match raw with
  | .ok idx => (idx, true)
  | .error .objectNotFound => (index, false)
  | .error .otherError => (index, false)

/-- `update_document_ignore_not_found` as the engine calls it (no transport
fault injected: the raw call either updates or reports not-found). -/
def update_document_ignore_not_found (index : List Doc) (doc_id : String) (fields : FieldUpdate) :
    List Doc × Bool :=
  ignore_not_found_catch (documents_update index doc_id fields) index

/-! ## Checkpoint store (`src/utils/checkpoint.py`)

One checkpoint document per job; `save_checkpoint` replaces it wholesale. -/

structure Checkpoint where
  phase : Nat
  last_id : String
  last_page : Nat
  batch_no : Nat
  total_processed : Nat
  updated_supabase : Nat
  updated_typesense : Nat
  default_set_count : Nat
deriving DecidableEq, Repr

def CHECKPOINT_DEFAULT : Checkpoint :=
  { phase := 1, last_id := "", last_page := 0, batch_no := 0, total_processed := 0,
    updated_supabase := 0, updated_typesense := 0, default_set_count := 0 }

/-- One logged index update attempt: target id, the fields dict sent, and the
boolean the wrapper returned. -/
structure Attempt where
  doc_id : String
  fields : FieldUpdate
  ok : Bool
deriving DecidableEq, Repr

/-- The observable trace of one engine run: the checkpoint saves performed, in
order, and the index update attempts issued, in order. -/
structure RunLog where
  saves : List Checkpoint
  attempts : List Attempt
deriving DecidableEq, Repr

end Backfill

namespace Backfill.InventoryFields

open Backfill

/-! ## `src/backfill_inventory_fields.py`

The world visible to the combined job: the source table, the index, the
persisted checkpoint, the configured sizes, and an injected fault oracle
telling which batches' bulk `UPDATE` raises (indexed by the `batch_no`
current when the statement runs). -/

structure World where
  products : List Row
  index : List Doc
  checkpoint : Checkpoint
  sb_update_fails : Nat → Bool
  batch_size : Nat
  page_size : Nat

/-- The per-record Typesense loop of phase 1: for each row, one update with
both `deleted_at = 0` and `created_at` from the transformation rule; a `True`
return increments `updated_typesense`. -/
def phase1_write_rows (index : List Doc) (rows : List Row) : List Doc × List Attempt × Nat :=
  match rows with
  | [] => (index, [], 0)
  | r :: rest =>
    let fields : FieldUpdate :=
      { created_at := some (created_at_ts r.created_at), deleted_at := some DEFAULT_DELETED_AT }
    let step := update_document_ignore_not_found index r.id fields
    let restOut := phase1_write_rows step.1 rest
    (restOut.1, { doc_id := r.id, fields := fields, ok := step.2 } :: restOut.2.1,
     (if step.2 then 1 else 0) + restOut.2.2)

/-- One non-empty batch of `run_phase1`: the Supabase bulk update of the rows
with a null `deleted_at` (rolled back with a zero count when it raises), the
per-record Typesense loop over all rows, then the checkpoint commit
(`last_id` becomes the batch's last key, `batch_no` increments, counters
accumulate) and its save. -/
def phase1_batch (w : World) (st : Checkpoint) (rows : List Row) :
    World × Checkpoint × List Attempt :=
  let lastId := ((rows.getLast?).map Row.id).getD st.last_id
  let to_update_supabase := (rows.filter (fun r => r.deleted_at = Option.none)).map Row.id
  let sb :=
    if to_update_supabase.isEmpty then (w.products, 0)
    else if w.sb_update_fails st.batch_no then (w.products, 0)
    else update_products_deleted_at w.products to_update_supabase DEFAULT_DELETED_AT
  let ts := phase1_write_rows w.index rows
  let st1 : Checkpoint :=
    { st with
      total_processed := st.total_processed + rows.length
      updated_supabase := st.updated_supabase + sb.2
      updated_typesense := st.updated_typesense + ts.2.2
      last_id := lastId
      batch_no := st.batch_no + 1 }
  ({ w with products := sb.1, index := ts.1, checkpoint := st1 }, st1, ts.2.1)

/-- The `while True` loop of `run_phase1`, with explicit fuel.  An empty fetch
transitions the checkpoint to phase 2, saves it, and returns. -/
def run_phase1_loop (w : World) (st : Checkpoint) : Nat → World × Checkpoint × RunLog
  | 0 => (w, st, { saves := [], attempts := [] })
  | fuel + 1 =>
    let rows := fetch_products_batch w.products st.last_id w.batch_size
    if rows.isEmpty then
      let st1 : Checkpoint := { st with phase := 2, last_page := 0 }
      ({ w with checkpoint := st1 }, st1, { saves := [st1], attempts := [] })
    else
      let b := phase1_batch w st rows
      let rest := run_phase1_loop b.1 b.2.1 fuel
      (rest.1, rest.2.1,
       { saves := b.2.1 :: rest.2.2.saves, attempts := b.2.2 ++ rest.2.2.attempts })

/-- The `_state` initialisation at the top of `run_phase1`: phase reset to 1,
`last_page` reset to 0, cursor and counters taken from the loaded checkpoint. -/
def run_phase1_load (cp : Checkpoint) : Checkpoint :=
  { phase := 1, last_id := cp.last_id, last_page := 0, batch_no := cp.batch_no,
    total_processed := cp.total_processed, updated_supabase := cp.updated_supabase,
    updated_typesense := cp.updated_typesense, default_set_count := cp.default_set_count }

def run_phase1 (w : World) (fuel : Nat) : World × Checkpoint × RunLog :=
  run_phase1_loop w (run_phase1_load w.checkpoint) fuel

/-! ### Phase 1 under a cancellation signal

`run_phase1_signal w j k` models a SIGINT/SIGTERM delivered while record `k`
of the `j`-th batch of this invocation (0-based) is about to be written: the
batch's Supabase bulk update has already run, the first `k` Typesense writes
of the batch have completed, and `handle_signal` then performs one
`save_current_checkpoint()` of the in-memory `_state` — unchanged since the
previous batch commit — runs `cleanup()` and calls `sys.exit(0)`, so the
process ends with exit status 0 and no further writes.  If the source is
exhausted before batch `j` is reached, the run completes phase 1 normally and
the signal never fires (`fired = false`). -/

structure SignalResult where
  world : World
  log : RunLog
  exitCode : Nat
  fired : Bool

def run_phase1_signal_loop (w : World) (st : Checkpoint) (k : Nat) :
    Nat → SignalResult
  | 0 =>
    let rows := fetch_products_batch w.products st.last_id w.batch_size
    if rows.isEmpty then
      let st1 : Checkpoint := { st with phase := 2, last_page := 0 }
      { world := { w with checkpoint := st1 },
        log := { saves := [st1], attempts := [] }, exitCode := 0, fired := false }
    else
      let to_update_supabase := (rows.filter (fun r => r.deleted_at = Option.none)).map Row.id
      let sb :=
        if to_update_supabase.isEmpty then (w.products, 0)
        else if w.sb_update_fails st.batch_no then (w.products, 0)
        else update_products_deleted_at w.products to_update_supabase DEFAULT_DELETED_AT
      let ts := phase1_write_rows w.index (rows.take k)
      { world := { w with products := sb.1, index := ts.1, checkpoint := st },
        log := { saves := [st], attempts := ts.2.1 }, exitCode := 0, fired := true }
  | j + 1 =>
    let rows := fetch_products_batch w.products st.last_id w.batch_size
    if rows.isEmpty then
      let st1 : Checkpoint := { st with phase := 2, last_page := 0 }
      { world := { w with checkpoint := st1 },
        log := { saves := [st1], attempts := [] }, exitCode := 0, fired := false }
    else
      let b := phase1_batch w st rows
      let rest := run_phase1_signal_loop b.1 b.2.1 k j
      { rest with
        log := { saves := b.2.1 :: rest.log.saves, attempts := b.2.2 ++ rest.log.attempts } }

def run_phase1_signal (w : World) (j k : Nat) : SignalResult :=
  run_phase1_signal_loop w (run_phase1_load w.checkpoint) k j

/-! ### Phase 2 — index reconciliation -/

/-- Modelled from the spec: the Index Writer's `listPage` capability (the
match-all catalog search the engine pages through).  Page `p` of the index is
the `p`-th size-bounded slice in the index's enumeration order; the engine
requests pages 0, 1, 2, … and stops at the first empty one. -/
def search_page (index : List Doc) (page per_page : Nat) : List Doc :=
  (index.drop (page * per_page)).take per_page

/-- The stamping dict of phase 2: both fields set to their defaults. -/
def defaultFields : FieldUpdate :=
  { created_at := some DEFAULT_CREATED_AT, deleted_at := some DEFAULT_DELETED_AT }

/-- The `for pid in doc_ids` loop of `run_phase2`: ids found in the source
(`existsIds`, computed once per page) are skipped; the rest are stamped with
the defaults, counting each update that returns `True`. -/
def phase2_default_loop (index : List Doc) (existsIds : List String) :
    List String → List Doc × List Attempt × Nat
  | [] => (index, [], 0)
  | pid :: rest =>
    if pid ∈ existsIds then phase2_default_loop index existsIds rest
    else
      let step := update_document_ignore_not_found index pid defaultFields
      let restOut := phase2_default_loop step.1 existsIds rest
      (restOut.1, { doc_id := pid, fields := defaultFields, ok := step.2 } :: restOut.2.1,
       (if step.2 then 1 else 0) + restOut.2.2)

/-- One non-empty page of `run_phase2`: collect the non-empty document ids,
run the batched existence check, stamp the absentees, then commit
(`last_page` becomes `page + 1`, `batch_no` increments) and save. -/
def phase2_batch (w : World) (st : Checkpoint) (page : Nat) (hits : List Doc) :
    World × Checkpoint × List Attempt :=
  let doc_ids := (hits.map Doc.id).filter (fun i => decide (i ≠ ""))
  let existsIds := ids_exists_in_products w.products doc_ids
  let upd := phase2_default_loop w.index existsIds doc_ids
  let st1 : Checkpoint :=
    { st with
      default_set_count := st.default_set_count + upd.2.2
      last_page := page + 1
      batch_no := st.batch_no + 1 }
  ({ w with index := upd.1, checkpoint := st1 }, st1, upd.2.1)

/-- The `while True` loop of `run_phase2`; an empty page ends the phase with
no further save. -/
def run_phase2_loop (w : World) (st : Checkpoint) (page : Nat) :
    Nat → World × Checkpoint × RunLog
  | 0 => (w, st, { saves := [], attempts := [] })
  | fuel + 1 =>
    let hits := search_page w.index page w.page_size
    if hits.isEmpty then (w, st, { saves := [], attempts := [] })
    else
      let b := phase2_batch w st page hits
      let rest := run_phase2_loop b.1 b.2.1 (page + 1) fuel
      (rest.1, rest.2.1,
       { saves := b.2.1 :: rest.2.2.saves, attempts := b.2.2 ++ rest.2.2.attempts })

/-- The `_state` initialisation at the top of `run_phase2`: phase set to 2,
everything else taken from the loaded checkpoint (in particular the page
cursor `last_page`). -/
def run_phase2_load (cp : Checkpoint) : Checkpoint :=
  { phase := 2, last_id := cp.last_id, last_page := cp.last_page, batch_no := cp.batch_no,
    total_processed := cp.total_processed, updated_supabase := cp.updated_supabase,
    updated_typesense := cp.updated_typesense, default_set_count := cp.default_set_count }

def run_phase2 (w : World) (fuel : Nat) : World × Checkpoint × RunLog :=
  run_phase2_loop w (run_phase2_load w.checkpoint) (run_phase2_load w.checkpoint).last_page fuel

end Backfill.InventoryFields

namespace Backfill.DeletedAt

open Backfill

/-! ## `src/backfill_deleted_at.py` — the deleted_at-only job -/

/-- The deleted_at job's checkpoint record. -/
structure DState where
  total_processed : Nat
  updated_supabase : Nat
  updated_typesense : Nat
  last_id : String
  batch_no : Nat
deriving DecidableEq, Repr

def DELETED_AT_CHECKPOINT_DEFAULT : DState :=
  { total_processed := 0, updated_supabase := 0, updated_typesense := 0,
    last_id := "", batch_no := 0 }

structure DWorld where
  products : List Row
  index : List Doc
  checkpoint : DState
  sb_update_fails : Nat → Bool
  batch_size : Nat

/-- The per-id Typesense loop of `process_batch`: only the ids that had a null
`deleted_at` are written, with the single field `deleted_at = 0`. -/
def deleted_at_write_ids (index : List Doc) : List String → List Doc × List Attempt × Nat
  | [] => (index, [], 0)
  | pid :: rest =>
    let fields : FieldUpdate := { created_at := Option.none, deleted_at := some DEFAULT_DELETED_AT }
    let step := update_document_ignore_not_found index pid fields
    let restOut := deleted_at_write_ids step.1 rest
    (restOut.1, { doc_id := pid, fields := fields, ok := step.2 } :: restOut.2.1,
     (if step.2 then 1 else 0) + restOut.2.2)

structure DBatchResult where
  products : List Row
  index : List Doc
  attempts : List Attempt
  u_sb : Nat
  u_ts : Nat
  state : DState

/-- `process_batch`: returns `(0, 0, state)` untouched when no row has a null
`deleted_at`, and likewise — after rolling the transaction back — when the
bulk Supabase update raises (`failNow`); otherwise it commits the bulk
update, writes Typesense for the same ids, and accumulates the counters. -/
def process_batch (products : List Row) (index : List Doc) (failNow : Bool)
    (rows : List Row) (state : DState) : DBatchResult :=
  let to_update := (rows.filter (fun r => r.deleted_at = Option.none)).map Row.id
  if to_update.isEmpty then
    { products := products, index := index, attempts := [], u_sb := 0, u_ts := 0, state := state }
  else if failNow then
    { products := products, index := index, attempts := [], u_sb := 0, u_ts := 0, state := state }
  else
    let sb := update_products_deleted_at products to_update DEFAULT_DELETED_AT
    let ts := deleted_at_write_ids index to_update
    let state1 : DState :=
      { state with
        total_processed := state.total_processed + rows.length
        updated_supabase := state.updated_supabase + sb.2
        updated_typesense := state.updated_typesense + ts.2.2 }
    { products := sb.1, index := ts.1, attempts := ts.2.1,
      u_sb := sb.2, u_ts := ts.2.2, state := state1 }

/-- The main `while True` loop of `run`: `batch_no` is incremented and
`last_id` moved to the batch's last key before `process_batch` runs, and both
are written into the checkpoint saved at the end of the iteration whatever
`process_batch` returned. -/
def run_loop (w : DWorld) (st : DState) : Nat → DWorld × DState × List DState × List Attempt
  | 0 => (w, st, [], [])
  | fuel + 1 =>
    let rows := fetch_products_batch w.products st.last_id w.batch_size
    if rows.isEmpty then (w, st, [], [])
    else
      let batch_no1 := st.batch_no + 1
      let lastId := ((rows.getLast?).map Row.id).getD st.last_id
      let b := process_batch w.products w.index (w.sb_update_fails batch_no1) rows st
      let st1 : DState := { b.state with last_id := lastId, batch_no := batch_no1 }
      let w1 : DWorld := { w with products := b.products, index := b.index, checkpoint := st1 }
      let rest := run_loop w1 st1 fuel
      (rest.1, rest.2.1, st1 :: rest.2.2.1, b.attempts ++ rest.2.2.2)

def run (w : DWorld) (fuel : Nat) : DWorld × DState × List DState × List Attempt :=
  run_loop w w.checkpoint fuel

end Backfill.DeletedAt


namespace Backfill

/-! ## Helper lemmas -/

theorem applyFields_id (d : Doc) (f : FieldUpdate) : (applyFields d f).id = d.id := rfl

theorem ids_update_document (index : List Doc) (doc_id : String) (fields : FieldUpdate) :
    (update_document_ignore_not_found index doc_id fields).1.map Doc.id = index.map Doc.id := by
  by_cases h : doc_id ∈ index.map Doc.id
  · simp only [update_document_ignore_not_found, documents_update, ignore_not_found_catch, if_pos h]
    rw [List.map_map]
    refine List.map_congr_left ?_
    intro d _
    simp only [Function.comp_apply]
    split <;> rfl
  · simp only [update_document_ignore_not_found, documents_update, ignore_not_found_catch, if_neg h]

theorem snd_update_document (index : List Doc) (doc_id : String) (fields : FieldUpdate) :
    (update_document_ignore_not_found index doc_id fields).2 =
      decide (doc_id ∈ index.map Doc.id) := by
  by_cases h : doc_id ∈ index.map Doc.id
  · simp only [update_document_ignore_not_found, documents_update, ignore_not_found_catch, if_pos h]
    simp [h]
  · simp only [update_document_ignore_not_found, documents_update, ignore_not_found_catch, if_neg h]
    simp [h]

end Backfill

namespace Backfill.InventoryFields

open Backfill

theorem ids_phase1_write_rows (index : List Doc) (rows : List Row) :
    (phase1_write_rows index rows).1.map Doc.id = index.map Doc.id := by
  induction rows generalizing index with
  | nil => rfl
  | cons r rest ih =>
    simp only [phase1_write_rows]
    rw [ih, ids_update_document]

theorem attempts_phase1_write_rows (index : List Doc) (rows : List Row) :
    (phase1_write_rows index rows).2.1.map Attempt.doc_id = rows.map Row.id := by
  induction rows generalizing index with
  | nil => rfl
  | cons r rest ih =>
    simp only [phase1_write_rows, List.map_cons]
    rw [ih]

theorem count_phase1_write_rows (index : List Doc) (rows : List Row) :
    (phase1_write_rows index rows).2.2 =
      (rows.filter (fun r => decide (r.id ∈ index.map Doc.id))).length := by
  induction rows generalizing index with
  | nil => rfl
  | cons r rest ih =>
    simp only [phase1_write_rows, List.filter_cons]
    rw [ih, ids_update_document, snd_update_document]
    by_cases h : r.id ∈ index.map Doc.id
    · simp [h, Nat.add_comm]
    · simp [h]

end Backfill.InventoryFields

namespace Backfill

/-! ## C1 — transformation totality -/

/-- C1 (counterexample): the claim "created_at_to_timestamp returns an integer
and never raises for every input value, floats included" is false at the
concrete input `float('nan')`: the float branch runs `int(value)` outside any
`try`, and `int(float('nan'))` raises `ValueError`. -/
theorem c1_totality_counterexample :
    created_at_to_timestamp (Value.float PyFloat.nan) = Except.error PyError.valueError := rfl

/-- C1 (amended): for every input value except a non-finite float and except
an object whose `timestamp` accessor raises or returns a non-finite float —
that is, for absent inputs, any integer, any finite float, any string
well-formed or malformed, any object without a `timestamp` attribute, and
any object whose accessor returns a finite float —
`created_at_to_timestamp` returns an integer and never raises; an absent
input, an object without the accessor, and a string the ISO-8601 parse
rejects all return the fallback 0.  (On the excepted inputs the uncaught
`int(...)` conversions of the float and object branches raise.) -/
theorem c1_totality_amended (v : Value)
    (h : (match v with
          | Value.float f => f.isFinite
          | Value.obj (some t) => t.isFinite
          | _ => true) = true) :
    (∃ n : Int, created_at_to_timestamp v = Except.ok n)
    ∧ (v = Value.none → created_at_to_timestamp v = Except.ok 0)
    ∧ (v = Value.obj Option.none → created_at_to_timestamp v = Except.ok 0)
    ∧ (∀ s : String, v = Value.str s →
        parseIsoTimestamp (pyReplaceZ s) = Option.none →
        created_at_to_timestamp v = Except.ok 0) := by
  refine ⟨?_, ?_, ?_, ?_⟩
  · cases v with
    | none => exact ⟨0, rfl⟩
    | int n => exact ⟨n, rfl⟩
    | float f =>
      cases f with
      | finite x => exact ⟨ratTrunc x, rfl⟩
      | nan => simp [PyFloat.isFinite] at h
      | inf => simp [PyFloat.isFinite] at h
      | ninf => simp [PyFloat.isFinite] at h
    | str s =>
      unfold created_at_to_timestamp
      cases hp : parseIsoTimestamp (pyReplaceZ s) with
      | none => exact ⟨DEFAULT_CREATED_AT, by simp [hp]⟩
      | some ts => exact ⟨ts, by simp [hp]⟩
    | obj ts =>
      cases ts with
      | none => exact ⟨DEFAULT_CREATED_AT, rfl⟩
      | some t =>
        cases t with
        | float f =>
          cases f with
          | finite x => exact ⟨ratTrunc x, rfl⟩
          | nan => simp [TimestampAttr.isFinite, PyFloat.isFinite] at h
          | inf => simp [TimestampAttr.isFinite, PyFloat.isFinite] at h
          | ninf => simp [TimestampAttr.isFinite, PyFloat.isFinite] at h
        | raises e => simp [TimestampAttr.isFinite] at h
  · intro hv; subst hv; rfl
  · intro hv; subst hv; rfl
  · intro s hv hp; subst hv
    unfold created_at_to_timestamp
    simp [hp, DEFAULT_CREATED_AT]

/-- C1 (witness): the amended theorem applied at the malformed string input
`"not-a-date"`. -/
theorem c1_totality_witness :
    ∃ n : Int, created_at_to_timestamp (Value.str "not-a-date") = Except.ok n :=
  (c1_totality_amended (Value.str "not-a-date") (by decide)).1

/-! ## C9 — the wrapper is total and collapses outcomes -/

/-- C9: `update_document_ignore_not_found` never propagates an exception (the
catch yields a plain boolean for every raw outcome), returns `True` exactly
when the underlying update call succeeds, and maps a missing document and any
other error to the same `False`, so callers cannot distinguish them; against
the index model, its boolean is exactly membership of the target id. -/
theorem c9_update_total_collapse :
    (∀ (raw : Except TsException (List Doc)) (index : List Doc),
        (ignore_not_found_catch raw index).2 =
          (match raw with | Except.ok _ => true | Except.error _ => false))
    ∧ (∀ index : List Doc,
        ignore_not_found_catch (Except.error TsException.objectNotFound) index =
          ignore_not_found_catch (Except.error TsException.otherError) index)
    ∧ (∀ (index : List Doc) (doc_id : String) (fields : FieldUpdate),
        (update_document_ignore_not_found index doc_id fields).2 =
          decide (doc_id ∈ index.map Doc.id)) := by
  refine ⟨?_, ?_, ?_⟩
  · intro raw index
    cases raw with
    | ok idx => rfl
    | error e => cases e <;> rfl
  · intro index; rfl
  · intro index doc_id fields
    exact snd_update_document index doc_id fields

end Backfill

namespace Backfill.InventoryFields

open Backfill

/-! ## C8 — not-found tolerance -/

/-- C8: an index update targeting a non-existent document id reports not-found
without raising (`ObjectNotFound` is caught and mapped to `(index, false)`),
it is counted separately from successful updates (the success counter counts
exactly the rows whose document exists), and it does not halt processing of
the subsequent ids in the same batch (every row of the batch is attempted). -/
theorem c8_not_found_tolerance (index : List Doc) (doc_id : String) (fields : FieldUpdate)
    (rows : List Row) (h : doc_id ∉ index.map Doc.id) :
    update_document_ignore_not_found index doc_id fields = (index, false)
    ∧ documents_update index doc_id fields = Except.error TsException.objectNotFound
    ∧ (phase1_write_rows index rows).2.1.map Attempt.doc_id = rows.map Row.id
    ∧ (phase1_write_rows index rows).2.2 =
        (rows.filter (fun r => decide (r.id ∈ index.map Doc.id))).length := by
  refine ⟨?_, ?_, attempts_phase1_write_rows index rows, count_phase1_write_rows index rows⟩
  · unfold update_document_ignore_not_found documents_update ignore_not_found_catch
    simp [h]
  · unfold documents_update
    simp [h]

/-- Concrete data for the C8 witness: an index holding only document `x` and
a batch `[x, y]`. -/
def c8Index : List Doc := [{ id := "x", created_at := Option.none, deleted_at := Option.none }]

def c8Rows : List Row :=
  [{ id := "x", deleted_at := Option.none, created_at := Value.none },
   { id := "y", deleted_at := Option.none, created_at := Value.none }]

def c8Fields : FieldUpdate := { created_at := some 0, deleted_at := some 0 }

/-- C8 (witness): a batch `[x, y]` written against an index holding only `x`:
the update for the missing `y` returns not-found, both rows are attempted,
and the success count is the number of rows whose document exists. -/
theorem c8_not_found_tolerance_witness :
    update_document_ignore_not_found c8Index "y" c8Fields = (c8Index, false)
    ∧ documents_update c8Index "y" c8Fields = Except.error TsException.objectNotFound
    ∧ (phase1_write_rows c8Index c8Rows).2.1.map Attempt.doc_id = c8Rows.map Row.id
    ∧ (phase1_write_rows c8Index c8Rows).2.2 =
        (c8Rows.filter (fun r => decide (r.id ∈ c8Index.map Doc.id))).length :=
  c8_not_found_tolerance c8Index "y" c8Fields c8Rows (by decide)

/-! ## C2 — end-to-end scanning scenario -/

/-- The C2 scenario source table: ids a..e with the claim's created_at values
(batch size 2).  The float literal `1700000000.9` is represented exactly; the
binary double nearest to it truncates to the same integer. -/
def c2Rows : List Row :=
  [ { id := "a", deleted_at := Option.none, created_at := Value.none },
    { id := "b", deleted_at := Option.none, created_at := Value.str "2024-01-01T00:00:00Z" },
    { id := "c", deleted_at := Option.none, created_at := Value.int 1700000000 },
    { id := "d", deleted_at := Option.none,
      created_at := Value.float (PyFloat.finite (Rat.mk' 17000000009 10)) },
    { id := "e", deleted_at := Option.none, created_at := Value.str "not-a-date" } ]

def c2World : World :=
  { products := c2Rows,
    index := c2Rows.map (fun r => { id := r.id, created_at := Option.none, deleted_at := Option.none }),
    checkpoint := CHECKPOINT_DEFAULT,
    sb_update_fails := fun _ => false, batch_size := 2, page_size := 250 }

/-- C2: with source records a..e (batch size 2) holding the claim's
created_at values, one full scanning pass issues exactly the index updates
{a:0, b:1704067200, c:1700000000, d:1700000000, e:0}, leaves the persisted
cursor equal to "e", and sets the checkpoint phase to the reconciling value 2. -/
theorem c2_end_to_end_scenario :
    (run_phase1 c2World 10).2.2.attempts.map (fun a => (a.doc_id, a.fields.created_at)) =
      [("a", some 0), ("b", some 1704067200), ("c", some 1700000000),
       ("d", some 1700000000), ("e", some 0)]
    ∧ (run_phase1 c2World 10).1.checkpoint.last_id = "e"
    ∧ (run_phase1 c2World 10).1.checkpoint.phase = 2
    ∧ (run_phase1 c2World 10).2.1.last_id = "e"
    ∧ (run_phase1 c2World 10).2.1.phase = 2 := by
  decide

end Backfill.InventoryFields

namespace Backfill

/-! ## Order lemmas for the id order -/

theorem charListLt_irrefl (l : List Char) : charListLt l l = false := by
  induction l with
  | nil => rfl
  | cons a as ih => simp [charListLt, if_neg (lt_irrefl a), ih]

theorem charListLt_trans :
    ∀ {a b c : List Char}, charListLt a b = true → charListLt b c = true →
      charListLt a c = true := by
  intro a
  induction a with
  | nil =>
    intro b c h1 h2
    cases b with
    | nil => simp [charListLt] at h1
    | cons x xs =>
      cases c with
      | nil => simp [charListLt] at h2
      | cons y ys => rfl
  | cons a as ih =>
    intro b c h1 h2
    cases b with
    | nil => simp [charListLt] at h1
    | cons b bs =>
      cases c with
      | nil => simp [charListLt] at h2
      | cons c cs =>
        by_cases hab : a < b
        · by_cases hbc : b < c
          · simp [charListLt, if_pos (lt_trans hab hbc)]
          · by_cases hcb : c < b
            · simp [charListLt, if_neg hbc, if_pos hcb] at h2
            · have hbc' : b = c := le_antisymm (not_lt.mp hcb) (not_lt.mp hbc)
              subst hbc'
              simp [charListLt, if_pos hab]
        · by_cases hba : b < a
          · simp [charListLt, if_neg hab, if_pos hba] at h1
          · have hab' : a = b := le_antisymm (not_lt.mp hba) (not_lt.mp hab)
            subst hab'
            simp only [charListLt, if_neg hab, if_neg hba] at h1 ⊢
            by_cases hac : a < c
            · simp [if_pos hac]
            · by_cases hca : c < a
              · simp [charListLt, if_neg hac, if_pos hca] at h2
              · simp only [charListLt, if_neg hac, if_neg hca] at h2 ⊢
                exact ih h1 h2

theorem charListLt_conn :
    ∀ {a b : List Char}, charListLt a b = false → charListLt b a = false → a = b := by
  intro a
  induction a with
  | nil =>
    intro b h1 _
    cases b with
    | nil => rfl
    | cons x xs => simp [charListLt] at h1
  | cons a as ih =>
    intro b h1 h2
    cases b with
    | nil => simp [charListLt] at h2
    | cons b bs =>
      by_cases hab : a < b
      · simp [charListLt, if_pos hab] at h1
      · by_cases hba : b < a
        · simp [charListLt, if_neg hab, if_pos hba] at h2
        · have hab' : a = b := le_antisymm (not_lt.mp hba) (not_lt.mp hab)
          subst hab'
          simp only [charListLt, if_neg hab] at h1 h2
          rw [ih h1 h2]

theorem idLt_irrefl (s : String) : idLt s s = false :=
  charListLt_irrefl s.data

theorem idLt_trans {a b c : String} (h1 : idLt a b = true) (h2 : idLt b c = true) :
    idLt a c = true :=
  charListLt_trans h1 h2

theorem idLt_ne {a b : String} (h : idLt a b = true) : a ≠ b := by
  intro he
  subst he
  rw [idLt_irrefl] at h
  exact Bool.false_ne_true h

theorem idLt_conn {a b : String} (h1 : idLt a b = false) (h2 : idLt b a = false) : a = b := by
  cases a with
  | mk da =>
    cases b with
    | mk db =>
      have : da = db := charListLt_conn h1 h2
      rw [this]

theorem idLt_empty_left {s : String} (h : s ≠ "") : idLt "" s = true := by
  cases s with
  | mk data =>
    cases data with
    | nil => exact absurd rfl h
    | cons c cs => rfl

theorem idLe_refl (a : String) : idLe a a := Or.inr rfl

theorem idLe_trans {a b c : String} (h1 : idLe a b) (h2 : idLe b c) : idLe a c := by
  rcases h1 with h1 | h1
  · rcases h2 with h2 | h2
    · exact Or.inl (idLt_trans h1 h2)
    · subst h2; exact Or.inl h1
  · subst h1; exact h2

theorem idLe_of_lt {a b : String} (h : idLt a b = true) : idLe a b := Or.inl h

theorem idLt_of_le_of_lt {a b c : String} (h1 : idLe a b) (h2 : idLt b c = true) :
    idLt a c = true := by
  rcases h1 with h1 | h1
  · exact idLt_trans h1 h2
  · subst h1; exact h2

theorem idLt_of_lt_of_le {a b c : String} (h1 : idLt a b = true) (h2 : idLe b c) :
    idLt a c = true := by
  rcases h2 with h2 | h2
  · exact idLt_trans h1 h2
  · subst h2; exact h1

/-- The empty cursor is a lower bound for every id. -/
theorem idLe_empty (s : String) : idLe "" s := by
  by_cases h : s = ""
  · subst h; exact idLe_refl ""
  · exact Or.inl (idLt_empty_left h)

theorem idLe_of_empty {s t : String} (h : s = "") : idLe s t := by
  rw [h]
  exact idLe_empty t

end Backfill

namespace Backfill

theorem idLt_to_empty (s : String) : idLt s "" = false := by
  cases s with
  | mk data => cases data with
    | nil => rfl
    | cons c cs => rfl

theorem ne_empty_of_le {K c : String} (hK : K ≠ "") (h : idLe K c) : c ≠ "" := by
  intro hc
  subst hc
  rcases h with h | h
  · rw [idLt_to_empty] at h
    exact Bool.false_ne_true h
  · exact hK h

end Backfill

namespace Backfill.InventoryFields

open Backfill

/-- Every row fetched with a non-empty cursor has an id strictly greater than
the cursor. -/
theorem mem_fetch_gt {products : List Row} {last_id : String} {n : Nat}
    (hK : last_id ≠ "") {r : Row}
    (hr : r ∈ fetch_products_batch products last_id n) : idLt last_id r.id = true := by
  unfold fetch_products_batch at hr
  rw [if_neg hK] at hr
  have hr' := List.take_subset n _ hr
  exact (List.mem_filter.mp hr').2

/-- A fetched batch is a subset of the table. -/
theorem mem_fetch_subset {products : List Row} {last_id : String} {n : Nat} {r : Row}
    (hr : r ∈ fetch_products_batch products last_id n) : r ∈ products := by
  unfold fetch_products_batch at hr
  split at hr
  · exact List.take_subset n _ hr
  · exact (List.mem_filter.mp (List.take_subset n _ hr)).1

/-- A fetched batch inherits any pairwise property of the table. -/
theorem fetch_pairwise {P : Row → Row → Prop} {products : List Row} {last_id : String} {n : Nat}
    (hs : products.Pairwise P) : (fetch_products_batch products last_id n).Pairwise P := by
  unfold fetch_products_batch
  split
  · exact hs.sublist (List.take_sublist n products)
  · exact hs.sublist ((List.take_sublist n _).trans (List.filter_sublist products))

/-- In an id-sorted list, every element's id is at most the last element's. -/
theorem pairwise_idLe_getLast :
    ∀ {l : List Row}, l.Pairwise (fun r s => idLt r.id s.id = true) → ∀ (hne : l ≠ []),
      ∀ r ∈ l, idLe r.id ((l.getLast hne).id) := by
  intro l
  induction l with
  | nil => intro _ hne; exact absurd rfl hne
  | cons a t ih =>
    intro h hne r hr
    cases t with
    | nil =>
      rcases List.mem_singleton.mp hr with rfl
      exact idLe_refl _
    | cons b t' =>
      rw [List.getLast_cons (List.cons_ne_nil b t')]
      rcases List.mem_cons.mp hr with rfl | hr'
      · have hmem := List.getLast_mem (List.cons_ne_nil b t')
        exact idLe_of_lt ((List.pairwise_cons.mp h).1 _ hmem)
      · exact ih (List.pairwise_cons.mp h).2 (List.cons_ne_nil b t') r hr'

end Backfill.InventoryFields

namespace Backfill.DeletedAt

open Backfill

/-! ## C10 — counter gap in the deleted_at-only job -/

/-- C10: in the deleted_at-only job, a fetched batch in which no row has a
null `deleted_at`, or in which the bulk source update fails, leaves
`total_processed`, `updated_supabase` and `updated_typesense` unchanged
(`process_batch` returns early), while the main loop still advances `last_id`
to the batch's last key and increments `batch_no` before saving the
checkpoint: the first save of the continued run carries the old counters with
the new cursor and batch number. -/
theorem c10_counter_gap (w : DWorld) (st : DState) (fuel : Nat)
    (hne : (fetch_products_batch w.products st.last_id w.batch_size).isEmpty = false)
    (hcase :
      (((fetch_products_batch w.products st.last_id w.batch_size).filter
          (fun r => r.deleted_at = Option.none)).map Row.id).isEmpty = true
      ∨ w.sb_update_fails (st.batch_no + 1) = true) :
    (run_loop w st (fuel + 1)).2.2.1.head? =
      some { total_processed := st.total_processed,
             updated_supabase := st.updated_supabase,
             updated_typesense := st.updated_typesense,
             last_id := (((fetch_products_batch w.products st.last_id w.batch_size).getLast?).map
               Row.id).getD st.last_id,
             batch_no := st.batch_no + 1 } := by
  simp only [run_loop, hne, Bool.false_eq_true, if_false]
  rcases hcase with hcase | hcase
  · simp only [process_batch, hcase, if_true]
    rfl
  · simp only [process_batch, hcase]
    split
    · rfl
    · rfl

/-- Concrete data for the C10 witness: one row whose `deleted_at` is already
set, so the batch has nothing to update. -/
def c10World : DWorld :=
  { products := [{ id := "a", deleted_at := some 7, created_at := Value.int 5 }],
    index := [{ id := "a", created_at := Option.none, deleted_at := Option.none }],
    checkpoint := DELETED_AT_CHECKPOINT_DEFAULT,
    sb_update_fails := fun _ => false, batch_size := 10 }

/-- C10 (witness): the theorem applied to a one-row world whose single row
has a non-null `deleted_at`. -/
theorem c10_counter_gap_witness :
    (run_loop c10World DELETED_AT_CHECKPOINT_DEFAULT 1).2.2.1.head? =
      some { total_processed := DELETED_AT_CHECKPOINT_DEFAULT.total_processed,
             updated_supabase := DELETED_AT_CHECKPOINT_DEFAULT.updated_supabase,
             updated_typesense := DELETED_AT_CHECKPOINT_DEFAULT.updated_typesense,
             last_id := (((fetch_products_batch c10World.products
                 DELETED_AT_CHECKPOINT_DEFAULT.last_id c10World.batch_size).getLast?).map
               Row.id).getD DELETED_AT_CHECKPOINT_DEFAULT.last_id,
             batch_no := DELETED_AT_CHECKPOINT_DEFAULT.batch_no + 1 } :=
  c10_counter_gap c10World DELETED_AT_CHECKPOINT_DEFAULT 0 (by decide) (Or.inl (by decide))

/-! ## C3 — partial-failure atomicity -/

/-- Concrete data for the C3 counterexample: a single product with a null
`deleted_at` whose bulk source update always fails. -/
def c3World : DWorld :=
  { products := [{ id := "a", deleted_at := Option.none, created_at := Value.int 5 }],
    index := [{ id := "a", created_at := Option.none, deleted_at := Option.none }],
    checkpoint := DELETED_AT_CHECKPOINT_DEFAULT,
    sb_update_fails := fun _ => true, batch_size := 10 }

/-- C3 (counterexample): in the deleted_at job, when the bulk source update of
the only batch fails, the persisted cursor nevertheless advances from `""` to
the batch's last key `"a"` (the main loop sets `last_id` before calling
`process_batch` and saves it regardless), and a second invocation on the
resulting world fetches nothing, issues no writes and saves no batch
checkpoint — the batch is not reprocessed, contrary to the claim. -/
theorem c3_atomicity_counterexample :
    (run c3World 3).2.1.last_id = "a"
    ∧ (run c3World 3).2.1.updated_supabase = 0
    ∧ (run c3World 3).2.1.total_processed = 0
    ∧ (run c3World 3).1.checkpoint.last_id = "a"
    ∧ (run (run c3World 3).1 3).2.2.2 = []
    ∧ (run (run c3World 3).1 3).2.2.1 = [] := by
  decide

/-- C3 (amended): when the bulk source update of a batch fails, only that
transaction is rolled back (the table is unchanged).  In the deleted_at-only
job the batch's index-side writes are skipped and all counters are left
unchanged for that iteration; in the combined job the index-side writes still
proceed for every row of the batch and only the Supabase counter gains
nothing.  In both jobs the cursor (`last_id`) is nevertheless advanced to the
batch's last key and saved, so the batch is not reprocessed on the next
invocation: over an id-sorted table with non-empty keys, every row fetched at
the saved cursor lies strictly beyond every row of the failed batch. -/
theorem c3_atomicity_amended
    (w : DWorld) (st : DState) (fuel : Nat)
    (w2 : InventoryFields.World) (st2 : Checkpoint) (rows2 : List Row)
    (hne : (fetch_products_batch w.products st.last_id w.batch_size).isEmpty = false)
    (hnull : (((fetch_products_batch w.products st.last_id w.batch_size).filter
        (fun r => r.deleted_at = Option.none)).map Row.id).isEmpty = false)
    (hfail : w.sb_update_fails (st.batch_no + 1) = true)
    (hfail2 : w2.sb_update_fails st2.batch_no = true) :
    process_batch w.products w.index true
        (fetch_products_batch w.products st.last_id w.batch_size) st =
      { products := w.products, index := w.index, attempts := [],
        u_sb := 0, u_ts := 0, state := st }
    ∧ (run_loop w st (fuel + 1)).2.2.1.head? =
        some { total_processed := st.total_processed,
               updated_supabase := st.updated_supabase,
               updated_typesense := st.updated_typesense,
               last_id := (((fetch_products_batch w.products st.last_id
                   w.batch_size).getLast?).map Row.id).getD st.last_id,
               batch_no := st.batch_no + 1 }
    ∧ (w.products.Pairwise (fun r s => idLt r.id s.id = true) →
        "" ∉ w.products.map Row.id →
        ∀ r ∈ fetch_products_batch w.products st.last_id w.batch_size,
        ∀ r2 ∈ fetch_products_batch w.products
          ((((fetch_products_batch w.products st.last_id w.batch_size).getLast?).map
            Row.id).getD st.last_id) w.batch_size,
        idLt r.id r2.id = true)
    ∧ (InventoryFields.phase1_batch w2 st2 rows2).1.products = w2.products
    ∧ (InventoryFields.phase1_batch w2 st2 rows2).2.2.map Attempt.doc_id = rows2.map Row.id
    ∧ (InventoryFields.phase1_batch w2 st2 rows2).2.1.updated_supabase = st2.updated_supabase
    ∧ (InventoryFields.phase1_batch w2 st2 rows2).2.1.last_id =
        ((rows2.getLast?).map Row.id).getD st2.last_id := by
  refine ⟨?_, ?_, ?_, ?_, ?_, ?_, ?_⟩
  · simp only [process_batch, hnull, Bool.false_eq_true, if_false, if_true]
  · simp only [run_loop, hne, Bool.false_eq_true, if_false]
    simp only [process_batch, hnull, hfail, Bool.false_eq_true, if_false, if_true]
    rfl
  · intro hs hne0 r hr r2 hr2
    have hrowsne : fetch_products_batch w.products st.last_id w.batch_size ≠ [] := by
      intro hnil
      rw [hnil] at hne
      simp at hne
    have hgl := List.getLast?_eq_getLast _ hrowsne
    have hcur : ((((fetch_products_batch w.products st.last_id w.batch_size).getLast?).map
        Row.id).getD st.last_id) =
        ((fetch_products_batch w.products st.last_id w.batch_size).getLast hrowsne).id := by
      rw [hgl, Option.map_some', Option.getD_some]
    have hlastne : ((fetch_products_batch w.products st.last_id
        w.batch_size).getLast hrowsne).id ≠ "" := by
      intro h0
      refine hne0 ?_
      rw [← h0]
      exact List.mem_map_of_mem Row.id
        (InventoryFields.mem_fetch_subset (List.getLast_mem hrowsne))
    rw [hcur] at hr2
    have hr2gt := InventoryFields.mem_fetch_gt hlastne hr2
    have hrle : idLe r.id ((fetch_products_batch w.products st.last_id
        w.batch_size).getLast hrowsne).id :=
      InventoryFields.pairwise_idLe_getLast (InventoryFields.fetch_pairwise hs) hrowsne r hr
    exact idLt_of_le_of_lt hrle hr2gt
  · simp only [InventoryFields.phase1_batch, hfail2, if_true]
    split
    · rfl
    · rfl
  · exact InventoryFields.attempts_phase1_write_rows w2.index rows2
  · simp only [InventoryFields.phase1_batch, hfail2, if_true]
    split
    · rfl
    · rfl
  · rfl

/-- Concrete data for the C3 witness: the failing world of the counterexample
together with a one-row batch for the combined job. -/
def c3World2 : InventoryFields.World :=
  { products := [{ id := "a", deleted_at := Option.none, created_at := Value.int 5 }],
    index := [{ id := "a", created_at := Option.none, deleted_at := Option.none }],
    checkpoint := CHECKPOINT_DEFAULT,
    sb_update_fails := fun _ => true, batch_size := 10, page_size := 250 }

/-- C3 (witness): the amended theorem applied to the one-row failing worlds. -/
theorem c3_atomicity_amended_witness :
    process_batch c3World.products c3World.index true
        (fetch_products_batch c3World.products DELETED_AT_CHECKPOINT_DEFAULT.last_id
          c3World.batch_size) DELETED_AT_CHECKPOINT_DEFAULT =
      { products := c3World.products, index := c3World.index, attempts := [],
        u_sb := 0, u_ts := 0, state := DELETED_AT_CHECKPOINT_DEFAULT }
    ∧ (run_loop c3World DELETED_AT_CHECKPOINT_DEFAULT 1).2.2.1.head? =
        some { total_processed := DELETED_AT_CHECKPOINT_DEFAULT.total_processed,
               updated_supabase := DELETED_AT_CHECKPOINT_DEFAULT.updated_supabase,
               updated_typesense := DELETED_AT_CHECKPOINT_DEFAULT.updated_typesense,
               last_id := (((fetch_products_batch c3World.products
                   DELETED_AT_CHECKPOINT_DEFAULT.last_id c3World.batch_size).getLast?).map
                 Row.id).getD DELETED_AT_CHECKPOINT_DEFAULT.last_id,
               batch_no := DELETED_AT_CHECKPOINT_DEFAULT.batch_no + 1 }
    ∧ (c3World.products.Pairwise (fun r s => idLt r.id s.id = true) →
        "" ∉ c3World.products.map Row.id →
        ∀ r ∈ fetch_products_batch c3World.products DELETED_AT_CHECKPOINT_DEFAULT.last_id
          c3World.batch_size,
        ∀ r2 ∈ fetch_products_batch c3World.products
          ((((fetch_products_batch c3World.products DELETED_AT_CHECKPOINT_DEFAULT.last_id
            c3World.batch_size).getLast?).map Row.id).getD
            DELETED_AT_CHECKPOINT_DEFAULT.last_id) c3World.batch_size,
        idLt r.id r2.id = true)
    ∧ (InventoryFields.phase1_batch c3World2 CHECKPOINT_DEFAULT c3World2.products).1.products =
        c3World2.products
    ∧ (InventoryFields.phase1_batch c3World2 CHECKPOINT_DEFAULT c3World2.products).2.2.map
        Attempt.doc_id = c3World2.products.map Row.id
    ∧ (InventoryFields.phase1_batch c3World2 CHECKPOINT_DEFAULT
        c3World2.products).2.1.updated_supabase = CHECKPOINT_DEFAULT.updated_supabase
    ∧ (InventoryFields.phase1_batch c3World2 CHECKPOINT_DEFAULT
        c3World2.products).2.1.last_id =
        ((c3World2.products.getLast?).map Row.id).getD CHECKPOINT_DEFAULT.last_id :=
  c3_atomicity_amended c3World DELETED_AT_CHECKPOINT_DEFAULT 0 c3World2 CHECKPOINT_DEFAULT
    c3World2.products (by decide) (by decide) (by decide) (by decide)

end Backfill.DeletedAt


namespace Backfill.InventoryFields

open Backfill


/-- Through the whole scanning loop started at a cursor at least `K ≠ ""`,
every index update attempt targets an id strictly greater than `K`. -/
theorem run_phase1_loop_attempts_gt (fuel : Nat) (w : World) (st : Checkpoint)
    (K : String) (hK : K ≠ "") (hcur : idLe K st.last_id) :
    ∀ a ∈ (run_phase1_loop w st fuel).2.2.attempts, idLt K a.doc_id = true := by
  induction fuel generalizing w st with
  | zero => intro a ha; exact absurd ha (List.not_mem_nil a)
  | succ fuel ih =>
    intro a ha
    rw [run_phase1_loop] at ha
    by_cases hempty : (fetch_products_batch w.products st.last_id w.batch_size).isEmpty
    · rw [if_pos hempty] at ha
      exact absurd ha (List.not_mem_nil a)
    · rw [if_neg hempty] at ha
      simp only [List.mem_append] at ha
      have hlastne : st.last_id ≠ "" := ne_empty_of_le hK hcur
      have hrowsne : fetch_products_batch w.products st.last_id w.batch_size ≠ [] := by
        intro hnil
        rw [hnil] at hempty
        exact hempty rfl
      rcases ha with ha | ha
      · -- an attempt of the current batch: its id is a row id of the batch
        have hmem : a.doc_id ∈ (fetch_products_batch w.products st.last_id w.batch_size).map
            Row.id := by
          rw [← attempts_phase1_write_rows w.index
            (fetch_products_batch w.products st.last_id w.batch_size)]
          exact List.mem_map_of_mem Attempt.doc_id ha
        obtain ⟨r, hr, hrid⟩ := List.mem_map.mp hmem
        rw [← hrid]
        exact idLt_of_le_of_lt hcur (mem_fetch_gt hlastne hr)
      · -- an attempt of a later batch: the new cursor is still at least K
        refine ih _ _ ?_ a ha
        have hgl := List.getLast?_eq_getLast _ hrowsne
        have hglmem := List.getLast_mem hrowsne
        have hlt : idLt st.last_id ((fetch_products_batch w.products st.last_id
            w.batch_size).getLast hrowsne).id := mem_fetch_gt hlastne hglmem
        have : (phase1_batch w st (fetch_products_batch w.products st.last_id
            w.batch_size)).2.1.last_id = ((fetch_products_batch w.products st.last_id
            w.batch_size).getLast hrowsne).id := by
          simp only [phase1_batch, hgl, Option.map_some', Option.getD_some]
        rw [this]
        exact idLe_trans hcur (idLe_of_lt hlt)

/-- The first save of a continued scanning run is the commit of the first
batch. -/
theorem run_phase1_loop_first_save (fuel : Nat) (w : World) (st : Checkpoint)
    (hne : (fetch_products_batch w.products st.last_id w.batch_size).isEmpty = false) :
    (run_phase1_loop w st (fuel + 1)).2.2.saves.head? =
      some (phase1_batch w st (fetch_products_batch w.products st.last_id w.batch_size)).2.1 := by
  rw [run_phase1_loop]
  rw [if_neg (by rw [hne]; exact Bool.false_ne_true)]
  rfl

/-! ## C5 — resume correctness -/

/-- C5: for a checkpoint in the scanning phase with cursor `K ≠ ""` and batch
number `B`, a restarted engine fetches only rows with keys strictly greater
than `K`, its first committed batch is numbered `B + 1`, and no index write
of the whole restarted run targets a record key at or before `K`. -/
theorem c5_resume_correctness (w : World) (fuel : Nat)
    (hK : w.checkpoint.last_id ≠ "")
    (hne : (fetch_products_batch w.products w.checkpoint.last_id w.batch_size).isEmpty = false) :
    (∀ r ∈ fetch_products_batch w.products w.checkpoint.last_id w.batch_size,
        idLt w.checkpoint.last_id r.id = true)
    ∧ (∀ a ∈ (run_phase1 w fuel).2.2.attempts, idLt w.checkpoint.last_id a.doc_id = true)
    ∧ ((run_phase1 w (fuel + 1)).2.2.saves.head?.map Checkpoint.batch_no) =
        some (w.checkpoint.batch_no + 1) := by
  refine ⟨?_, ?_, ?_⟩
  · intro r hr
    exact mem_fetch_gt hK hr
  · exact run_phase1_loop_attempts_gt fuel w (run_phase1_load w.checkpoint)
      w.checkpoint.last_id hK (idLe_refl _)
  · rw [run_phase1, run_phase1_loop_first_save fuel w (run_phase1_load w.checkpoint) hne]
    rfl

/-- Concrete data for the C5 witness: a checkpoint resumed at cursor "a",
batch number 3, over a two-row table. -/
def c5World : World :=
  { products := [{ id := "a", deleted_at := Option.none, created_at := Value.int 1 },
                 { id := "b", deleted_at := Option.none, created_at := Value.int 2 }],
    index := [{ id := "a", created_at := Option.none, deleted_at := Option.none },
              { id := "b", created_at := Option.none, deleted_at := Option.none }],
    checkpoint := { phase := 1, last_id := "a", last_page := 0, batch_no := 3,
                    total_processed := 7, updated_supabase := 7, updated_typesense := 7,
                    default_set_count := 0 },
    sb_update_fails := fun _ => false, batch_size := 10, page_size := 250 }

/-- C5 (witness): the theorem applied to the resumed two-row world. -/
theorem c5_resume_correctness_witness :
    (∀ r ∈ fetch_products_batch c5World.products c5World.checkpoint.last_id c5World.batch_size,
        idLt c5World.checkpoint.last_id r.id = true)
    ∧ (∀ a ∈ (run_phase1 c5World 2).2.2.attempts,
        idLt c5World.checkpoint.last_id a.doc_id = true)
    ∧ ((run_phase1 c5World 3).2.2.saves.head?.map Checkpoint.batch_no) =
        some (c5World.checkpoint.batch_no + 1) :=
  c5_resume_correctness c5World 2 (by decide) (by decide)

end Backfill.InventoryFields

namespace Backfill.InventoryFields

open Backfill

/-- A signalled scanning run whose signal actually fires (the source was not
exhausted first) behaves as the normal run truncated to its first `j`
batches, followed by: the interrupted batch's first `k` index writes, exactly
one handler save repeating the last committed in-memory state, and exit
code 0. -/
theorem run_phase1_signal_loop_spec (j : Nat) (k : Nat) (w : World) (st : Checkpoint)
    (hfired : (run_phase1_signal_loop w st k j).fired = true) :
    (run_phase1_signal_loop w st k j).exitCode = 0
    ∧ (run_phase1_signal_loop w st k j).log.saves =
        (run_phase1_loop w st j).2.2.saves ++ [(run_phase1_loop w st j).2.1]
    ∧ (run_phase1_signal_loop w st k j).world.checkpoint = (run_phase1_loop w st j).2.1
    ∧ (run_phase1_signal_loop w st k j).log.attempts =
        (run_phase1_loop w st j).2.2.attempts ++
          (phase1_write_rows (run_phase1_loop w st j).1.index
            ((fetch_products_batch (run_phase1_loop w st j).1.products
              (run_phase1_loop w st j).2.1.last_id
              (run_phase1_loop w st j).1.batch_size).take k)).2.1 := by
  induction j generalizing w st with
  | zero =>
    by_cases hempty : (fetch_products_batch w.products st.last_id w.batch_size).isEmpty = true
    · exfalso
      rw [run_phase1_signal_loop, if_pos hempty] at hfired
      exact Bool.false_ne_true hfired
    · rw [run_phase1_signal_loop, if_neg hempty]
      exact ⟨rfl, rfl, rfl, rfl⟩
  | succ j ih =>
    by_cases hempty : (fetch_products_batch w.products st.last_id w.batch_size).isEmpty = true
    · exfalso
      rw [run_phase1_signal_loop, if_pos hempty] at hfired
      exact Bool.false_ne_true hfired
    · have hfired' : (run_phase1_signal_loop
          (phase1_batch w st (fetch_products_batch w.products st.last_id w.batch_size)).1
          (phase1_batch w st (fetch_products_batch w.products st.last_id w.batch_size)).2.1
          k j).fired = true := by
        rw [run_phase1_signal_loop, if_neg hempty] at hfired
        exact hfired
      obtain ⟨h0, h1, h2, h3⟩ := ih _ _ hfired'
      rw [run_phase1_signal_loop, if_neg hempty]
      refine ⟨h0, ?_, ?_, ?_⟩
      · show _ :: _ = _
        rw [run_phase1_loop]
        rw [if_neg hempty]
        show _ = (_ :: _) ++ _
        rw [List.cons_append, h1]
      · show (run_phase1_signal_loop _ _ k j).world.checkpoint = _
        rw [run_phase1_loop]
        rw [if_neg hempty]
        exact h2
      · show _ ++ _ = _
        conv_rhs => rw [run_phase1_loop]
        rw [if_neg hempty]
        show _ = (_ ++ _) ++ _
        rw [List.append_assoc, h3]

/-! ## C4 — interruption contract -/

/-- Concrete data for C4: four rows, batch size 2, everything present in the
index, no injected faults. -/
def c4World : World :=
  { products := [{ id := "a", deleted_at := Option.none, created_at := Value.int 1 },
                 { id := "b", deleted_at := Option.none, created_at := Value.int 2 },
                 { id := "c", deleted_at := Option.none, created_at := Value.int 3 },
                 { id := "d", deleted_at := Option.none, created_at := Value.int 4 }],
    index := [{ id := "a", created_at := Option.none, deleted_at := Option.none },
              { id := "b", created_at := Option.none, deleted_at := Option.none },
              { id := "c", created_at := Option.none, deleted_at := Option.none },
              { id := "d", created_at := Option.none, deleted_at := Option.none }],
    checkpoint := CHECKPOINT_DEFAULT,
    sb_update_fails := fun _ => false, batch_size := 2, page_size := 250 }

/-- C4 (counterexample): a signal during the second batch, after one of its
records was already fully written, leads to a handler save whose counters are
those of the first committed batch only: three records are fully written
(three successful index updates in the trace), yet every saved checkpoint —
including the single handler save, the last one — carries
`updated_typesense = 2`.  The claim's "one checkpoint save containing the
counters accumulated up to the last fully-written record" is therefore false
at this input (it would require 3), although the exit status is 0. -/
theorem c4_interruption_counterexample :
    (run_phase1_signal c4World 1 1).log.saves.map (fun s => s.updated_typesense) = [2, 2]
    ∧ ((run_phase1_signal c4World 1 1).log.attempts.filter (fun a => a.ok)).length = 3
    ∧ (run_phase1_signal c4World 1 1).exitCode = 0 := by
  decide

/-- C4 (amended): when a cancellation signal arrives while record `k` of
batch `j` is about to be written (and the source was not exhausted first),
the engine abandons all writes of the current batch beyond the first `k`,
performs exactly one further checkpoint save — the handler's — whose content
is the in-memory state of the last fully-committed batch (writes already
completed inside the interrupted batch are not reflected in its counters),
leaves the persisted checkpoint equal to that same state, so the cursor is
not advanced past the last fully persisted checkpoint, and the process
terminates with exit status 0. -/
theorem c4_interruption_amended (w : World) (j k : Nat)
    (hfired : (run_phase1_signal w j k).fired = true) :
    (run_phase1_signal w j k).exitCode = 0
    ∧ (run_phase1_signal w j k).log.saves =
        (run_phase1 w j).2.2.saves ++ [(run_phase1 w j).2.1]
    ∧ (run_phase1_signal w j k).world.checkpoint = (run_phase1 w j).2.1
    ∧ (run_phase1_signal w j k).log.attempts =
        (run_phase1 w j).2.2.attempts ++
          (phase1_write_rows (run_phase1 w j).1.index
            ((fetch_products_batch (run_phase1 w j).1.products (run_phase1 w j).2.1.last_id
              (run_phase1 w j).1.batch_size).take k)).2.1 :=
  run_phase1_signal_loop_spec j k w (run_phase1_load w.checkpoint) hfired

/-- C4 (witness): the amended theorem applied to the four-row world with the
signal arriving at record 1 of batch 1. -/
theorem c4_interruption_amended_witness :
    (run_phase1_signal c4World 1 1).exitCode = 0
    ∧ (run_phase1_signal c4World 1 1).log.saves =
        (run_phase1 c4World 1).2.2.saves ++ [(run_phase1 c4World 1).2.1]
    ∧ (run_phase1_signal c4World 1 1).world.checkpoint = (run_phase1 c4World 1).2.1
    ∧ (run_phase1_signal c4World 1 1).log.attempts =
        (run_phase1 c4World 1).2.2.attempts ++
          (phase1_write_rows (run_phase1 c4World 1).1.index
            ((fetch_products_batch (run_phase1 c4World 1).1.products
              (run_phase1 c4World 1).2.1.last_id
              (run_phase1 c4World 1).1.batch_size).take 1)).2.1 :=
  c4_interruption_amended c4World 1 1 (by decide)

end Backfill.InventoryFields

namespace Backfill

/-- The component-wise order on checkpoints used by the monotonicity
invariant: cursor, page and every counter are non-decreasing. -/
def cpLE (s t : Checkpoint) : Prop :=
  idLe s.last_id t.last_id ∧ s.last_page ≤ t.last_page ∧ s.batch_no ≤ t.batch_no
    ∧ s.total_processed ≤ t.total_processed ∧ s.updated_supabase ≤ t.updated_supabase
    ∧ s.updated_typesense ≤ t.updated_typesense ∧ s.default_set_count ≤ t.default_set_count

theorem update_products_ids (products : List Row) (ids : List String) (v : Int) :
    (update_products_deleted_at products ids v).1.map Row.id = products.map Row.id := by
  unfold update_products_deleted_at
  rw [List.map_map]
  refine List.map_congr_left ?_
  intro r _
  simp only [Function.comp_apply]
  split <;> rfl

end Backfill

namespace Backfill.InventoryFields

open Backfill

theorem phase1_batch_products_ids (w : World) (st : Checkpoint) (rows : List Row) :
    (phase1_batch w st rows).1.products.map Row.id = w.products.map Row.id := by
  unfold phase1_batch
  simp only
  split
  · rfl
  · split
    · rfl
    · exact update_products_ids w.products _ DEFAULT_DELETED_AT

theorem phase1_batch_batch_size (w : World) (st : Checkpoint) (rows : List Row) :
    (phase1_batch w st rows).1.batch_size = w.batch_size := rfl


/-- The table stays pairwise id-sorted through a phase-1 batch. -/
theorem phase1_batch_products_pairwise (w : World) (st : Checkpoint) (rows : List Row)
    (hs : w.products.Pairwise (fun r s => idLt r.id s.id = true)) :
    (phase1_batch w st rows).1.products.Pairwise (fun r s => idLt r.id s.id = true) := by
  unfold phase1_batch
  simp only
  split
  · exact hs
  · split
    · exact hs
    · unfold update_products_deleted_at
      simp only
      refine hs.map _ ?_
      intro a b hab
      have ha : (if a.id ∈ (rows.filter (fun r => r.deleted_at = Option.none)).map Row.id
          then { a with deleted_at := some DEFAULT_DELETED_AT } else a).id = a.id := by
        split <;> rfl
      have hb : (if b.id ∈ (rows.filter (fun r => r.deleted_at = Option.none)).map Row.id
          then { b with deleted_at := some DEFAULT_DELETED_AT } else b).id = b.id := by
        split <;> rfl
      rw [ha, hb]
      exact hab


/-- The committed cursor of a batch is its last row's id. -/
theorem phase1_batch_last_id (w : World) (st : Checkpoint)
    (hne : fetch_products_batch w.products st.last_id w.batch_size ≠ []) :
    (phase1_batch w st (fetch_products_batch w.products st.last_id w.batch_size)).2.1.last_id =
      ((fetch_products_batch w.products st.last_id w.batch_size).getLast hne).id := by
  simp only [phase1_batch, List.getLast?_eq_getLast _ hne, Option.map_some', Option.getD_some]

/-- The cursor never moves backwards across one committed batch. -/
theorem st_le_batch_last (w : World) (st : Checkpoint)
    (hne : fetch_products_batch w.products st.last_id w.batch_size ≠ []) :
    idLe st.last_id ((fetch_products_batch w.products st.last_id w.batch_size).getLast hne).id := by
  by_cases hK : st.last_id = ""
  · exact idLe_of_empty hK
  · exact idLe_of_lt (mem_fetch_gt hK (List.getLast_mem hne))

/-- Phase-1 checkpoint saves form a `cpLE`-chain from the loaded state. -/
theorem run_phase1_loop_saves_chain (fuel : Nat) (w : World) (st : Checkpoint)
    (hpage : st.last_page = 0) :
    List.Chain cpLE st (run_phase1_loop w st fuel).2.2.saves := by
  induction fuel generalizing w st with
  | zero => exact List.Chain.nil
  | succ fuel ih =>
    rw [run_phase1_loop]
    by_cases hempty : (fetch_products_batch w.products st.last_id w.batch_size).isEmpty = true
    · rw [if_pos hempty]
      refine List.Chain.cons ?_ List.Chain.nil
      refine ⟨idLe_refl _, ?_, le_refl _, le_refl _, le_refl _, le_refl _, le_refl _⟩
      rw [hpage]
    · rw [if_neg hempty]
      have hne : fetch_products_batch w.products st.last_id w.batch_size ≠ [] := by
        intro hnil
        rw [hnil] at hempty
        exact hempty rfl
      refine List.Chain.cons ?_ (ih _ _ ?_)
      · refine ⟨?_, le_refl _, Nat.le_succ _, Nat.le_add_right _ _, Nat.le_add_right _ _,
          Nat.le_add_right _ _, le_refl _⟩
        rw [phase1_batch_last_id w st hne]
        exact st_le_batch_last w st hne
      · exact hpage

/-- Phase-2 checkpoint saves form a `cpLE`-chain from the loaded state. -/
theorem run_phase2_loop_saves_chain (fuel : Nat) (w : World) (st : Checkpoint) (page : Nat)
    (hpage : st.last_page = page) :
    List.Chain cpLE st (run_phase2_loop w st page fuel).2.2.saves := by
  induction fuel generalizing w st page with
  | zero => exact List.Chain.nil
  | succ fuel ih =>
    rw [run_phase2_loop]
    by_cases hempty : (search_page w.index page w.page_size).isEmpty = true
    · rw [if_pos hempty]
      exact List.Chain.nil
    · rw [if_neg hempty]
      refine List.Chain.cons ?_ (ih _ _ _ rfl)
      refine ⟨idLe_refl _, ?_, Nat.le_succ _, le_refl _, le_refl _, le_refl _,
        Nat.le_add_right _ _⟩
      rw [hpage]
      exact Nat.le_succ _

end Backfill.InventoryFields

namespace Backfill.InventoryFields

open Backfill

theorem run_phase1_loop_products_ids (fuel : Nat) (w : World) (st : Checkpoint) :
    (run_phase1_loop w st fuel).1.products.map Row.id = w.products.map Row.id := by
  induction fuel generalizing w st with
  | zero => rfl
  | succ fuel ih =>
    rw [run_phase1_loop]
    by_cases hempty : (fetch_products_batch w.products st.last_id w.batch_size).isEmpty = true
    · rw [if_pos hempty]
    · rw [if_neg hempty]
      rw [ih]
      exact phase1_batch_products_ids w st _

/-- Every index update attempt of the scanning loop targets an id of the
source table. -/
theorem run_phase1_loop_attempts_mem (fuel : Nat) (w : World) (st : Checkpoint) :
    ∀ a ∈ (run_phase1_loop w st fuel).2.2.attempts, a.doc_id ∈ w.products.map Row.id := by
  induction fuel generalizing w st with
  | zero => intro a ha; exact absurd ha (List.not_mem_nil a)
  | succ fuel ih =>
    intro a ha
    rw [run_phase1_loop] at ha
    by_cases hempty : (fetch_products_batch w.products st.last_id w.batch_size).isEmpty = true
    · rw [if_pos hempty] at ha
      exact absurd ha (List.not_mem_nil a)
    · rw [if_neg hempty] at ha
      simp only [List.mem_append] at ha
      rcases ha with ha | ha
      · have hmem : a.doc_id ∈ (fetch_products_batch w.products st.last_id w.batch_size).map
            Row.id := by
          rw [← attempts_phase1_write_rows w.index
            (fetch_products_batch w.products st.last_id w.batch_size)]
          exact List.mem_map_of_mem Attempt.doc_id ha
        obtain ⟨r, hr, hrid⟩ := List.mem_map.mp hmem
        rw [← hrid]
        exact List.mem_map_of_mem Row.id (mem_fetch_subset hr)
      · have := ih _ _ a ha
        rw [phase1_batch_products_ids w st _] at this
        exact this

/-- Over an id-sorted table, the cursor never moves backwards across a
scanning run, and every attempted id is at most the final cursor. -/
theorem run_phase1_loop_le_final (fuel : Nat) (w : World) (st : Checkpoint)
    (hs : w.products.Pairwise (fun r s => idLt r.id s.id = true)) :
    idLe st.last_id (run_phase1_loop w st fuel).2.1.last_id
    ∧ ∀ a ∈ (run_phase1_loop w st fuel).2.2.attempts,
        idLe a.doc_id (run_phase1_loop w st fuel).2.1.last_id := by
  induction fuel generalizing w st with
  | zero =>
    exact ⟨idLe_refl _, fun a ha => absurd ha (List.not_mem_nil a)⟩
  | succ fuel ih =>
    rw [run_phase1_loop]
    by_cases hempty : (fetch_products_batch w.products st.last_id w.batch_size).isEmpty = true
    · rw [if_pos hempty]
      exact ⟨idLe_refl _, fun a ha => absurd ha (List.not_mem_nil a)⟩
    · rw [if_neg hempty]
      have hne : fetch_products_batch w.products st.last_id w.batch_size ≠ [] := by
        intro hnil
        rw [hnil] at hempty
        exact hempty rfl
      have hs' := phase1_batch_products_pairwise w st
        (fetch_products_batch w.products st.last_id w.batch_size) hs
      obtain ⟨hle, hatt⟩ := ih _ _ hs'
      have hstep : idLe st.last_id (phase1_batch w st
          (fetch_products_batch w.products st.last_id w.batch_size)).2.1.last_id := by
        rw [phase1_batch_last_id w st hne]
        exact st_le_batch_last w st hne
      refine ⟨idLe_trans hstep hle, ?_⟩
      intro a ha
      simp only [List.mem_append] at ha
      rcases ha with ha | ha
      · have hmem : a.doc_id ∈ (fetch_products_batch w.products st.last_id w.batch_size).map
            Row.id := by
          rw [← attempts_phase1_write_rows w.index
            (fetch_products_batch w.products st.last_id w.batch_size)]
          exact List.mem_map_of_mem Attempt.doc_id ha
        obtain ⟨r, hr, hrid⟩ := List.mem_map.mp hmem
        have hrle : idLe r.id ((fetch_products_batch w.products st.last_id
            w.batch_size).getLast hne).id :=
          pairwise_idLe_getLast (fetch_pairwise hs) hne r hr
        rw [← phase1_batch_last_id w st hne] at hrle
        rw [← hrid]
        exact idLe_trans hrle hle
      · exact hatt a ha

/-! ## C7 — checkpoint monotonicity invariant -/

/-- C7: across the checkpoint saves of a run, the cursor, the page and every
counter are monotonically non-decreasing (the phase-1 and phase-2 save
sequences are `cpLE`-chains from the loaded state); a non-empty batch's save
carries as cursor exactly the last key of the fetched batch; and over an
id-sorted table with non-empty keys, re-fetching with the run's final
persisted cursor returns no record that was already written. -/
theorem c7_checkpoint_monotonicity (w : World) (fuel fuel2 : Nat) (w2 : World)
    (hs : w.products.Pairwise (fun r s => idLt r.id s.id = true))
    (hnid : "" ∉ w.products.map Row.id)
    (hne : (fetch_products_batch w.products w.checkpoint.last_id w.batch_size).isEmpty = false) :
    List.Chain cpLE (run_phase1_load w.checkpoint) (run_phase1 w fuel).2.2.saves
    ∧ ((run_phase1 w (fuel + 1)).2.2.saves.head?.map Checkpoint.last_id) =
        some ((((fetch_products_batch w.products w.checkpoint.last_id
          w.batch_size).getLast?).map Row.id).getD w.checkpoint.last_id)
    ∧ (∀ a ∈ (run_phase1 w fuel).2.2.attempts,
        ∀ r ∈ fetch_products_batch (run_phase1 w fuel).1.products
          (run_phase1 w fuel).2.1.last_id (run_phase1 w fuel).1.batch_size,
          idLt a.doc_id r.id = true)
    ∧ List.Chain cpLE (run_phase2_load w2.checkpoint) (run_phase2 w2 fuel2).2.2.saves := by
  refine ⟨?_, ?_, ?_, ?_⟩
  · exact run_phase1_loop_saves_chain fuel w (run_phase1_load w.checkpoint) rfl
  · rw [run_phase1, run_phase1_loop_first_save fuel w (run_phase1_load w.checkpoint) hne]
    rfl
  · intro a ha r hr
    obtain ⟨_, hatt⟩ := run_phase1_loop_le_final fuel w (run_phase1_load w.checkpoint) hs
    have hale := hatt a ha
    have hr' : r ∈ fetch_products_batch
        (run_phase1_loop w (run_phase1_load w.checkpoint) fuel).1.products
        (run_phase1_loop w (run_phase1_load w.checkpoint) fuel).2.1.last_id
        (run_phase1_loop w (run_phase1_load w.checkpoint) fuel).1.batch_size := hr
    by_cases hfin : (run_phase1_loop w (run_phase1_load w.checkpoint) fuel).2.1.last_id = ""
    · exfalso
      have hmem := run_phase1_loop_attempts_mem fuel w (run_phase1_load w.checkpoint) a ha
      have hid : a.doc_id = "" := by
        rcases hale with hlt | heq
        · rw [hfin] at hlt
          rw [idLt_to_empty] at hlt
          exact absurd hlt Bool.false_ne_true
        · rw [heq]
          exact hfin
      rw [hid] at hmem
      exact hnid hmem
    · exact idLt_of_le_of_lt hale (mem_fetch_gt hfin hr')
  · exact run_phase2_loop_saves_chain fuel2 w2 (run_phase2_load w2.checkpoint) _ rfl

/-- C7 (witness): the theorem applied to the sorted two-row resumed world. -/
theorem c7_checkpoint_monotonicity_witness :
    List.Chain cpLE (run_phase1_load c5World.checkpoint) (run_phase1 c5World 2).2.2.saves
    ∧ ((run_phase1 c5World 3).2.2.saves.head?.map Checkpoint.last_id) =
        some ((((fetch_products_batch c5World.products c5World.checkpoint.last_id
          c5World.batch_size).getLast?).map Row.id).getD c5World.checkpoint.last_id)
    ∧ (∀ a ∈ (run_phase1 c5World 2).2.2.attempts,
        ∀ r ∈ fetch_products_batch (run_phase1 c5World 2).1.products
          (run_phase1 c5World 2).2.1.last_id (run_phase1 c5World 2).1.batch_size,
          idLt a.doc_id r.id = true)
    ∧ List.Chain cpLE (run_phase2_load c5World.checkpoint) (run_phase2 c5World 1).2.2.saves :=
  c7_checkpoint_monotonicity c5World 2 1 c5World (by decide) (by decide) (by decide)

end Backfill.InventoryFields

namespace Backfill.InventoryFields

open Backfill

/-! ## Reconciliation characterization (towards C6)

The effect of one full phase-2 pass: every index document absent from the
source (and with a non-empty id) has both fields stamped with the defaults,
everything else is untouched, and the counter gains exactly the number of
such absentees. -/

/-- The stamped form of a document: both backfill fields set to defaults. -/
def stampDefaults (d : Doc) : Doc :=
  { d with created_at := some DEFAULT_CREATED_AT, deleted_at := some DEFAULT_DELETED_AT }

/-- What one complete pass does to a single document. -/
def defaultIfAbsent (productIds : List String) (d : Doc) : Doc :=
  if d.id = "" ∨ d.id ∈ productIds then d else stampDefaults d

/-- Number of index documents the pass stamps. -/
def absenteeCount (productIds : List String) (docs : List Doc) : Nat :=
  (docs.filter (fun d => decide (¬(d.id = "" ∨ d.id ∈ productIds)))).length

/-- Stamping a document when its id is in a given set. -/
def stampIfMem (ids : List String) (d : Doc) : Doc :=
  if d.id ∈ ids then stampDefaults d else d

theorem stampIfMem_id (ids : List String) (d : Doc) : (stampIfMem ids d).id = d.id := by
  unfold stampIfMem
  split <;> rfl

theorem defaultIfAbsent_id (productIds : List String) (d : Doc) :
    (defaultIfAbsent productIds d).id = d.id := by
  unfold defaultIfAbsent
  split <;> rfl

theorem defaultIfAbsent_idem (productIds : List String) (d : Doc) :
    defaultIfAbsent productIds (defaultIfAbsent productIds d) = defaultIfAbsent productIds d := by
  unfold defaultIfAbsent
  by_cases h : d.id = "" ∨ d.id ∈ productIds
  · rw [if_pos h, if_pos h]
  · rw [if_neg h, if_neg (show ¬((stampDefaults d).id = "" ∨ (stampDefaults d).id ∈ productIds)
      from h)]
    rfl

theorem map_stampIfMem_eq_self {ids : List String} {l : List Doc}
    (h : ∀ d ∈ l, d.id ∉ ids) : l.map (stampIfMem ids) = l := by
  have : l.map (stampIfMem ids) = l.map (fun d => d) := by
    refine List.map_congr_left ?_
    intro d hd
    unfold stampIfMem
    rw [if_neg (h d hd)]
  rw [this, List.map_id']

theorem update_document_mem (index : List Doc) (pid : String) (fields : FieldUpdate)
    (h : pid ∈ index.map Doc.id) :
    update_document_ignore_not_found index pid fields =
      (index.map (fun d => if d.id = pid then applyFields d fields else d), true) := by
  unfold update_document_ignore_not_found documents_update ignore_not_found_catch
  rw [if_pos h]

theorem map_g_ids (index : List Doc) (pid : String) (fields : FieldUpdate) :
    (index.map (fun d => if d.id = pid then applyFields d fields else d)).map Doc.id =
      index.map Doc.id := by
  rw [List.map_map]
  refine List.map_congr_left ?_
  intro d _
  simp only [Function.comp_apply]
  split <;> rfl

/-- Characterization of the per-page default-stamping loop: the resulting
index stamps exactly the requested absent ids, and the counter gains one per
absent id in the list. -/
theorem phase2_default_loop_char (existsIds : List String) :
    ∀ (doc_ids : List String) (index : List Doc),
      (∀ pid ∈ doc_ids, pid ∈ index.map Doc.id) →
      (phase2_default_loop index existsIds doc_ids).1 =
        index.map (stampIfMem (doc_ids.filter (fun p => decide (p ∉ existsIds))))
      ∧ (phase2_default_loop index existsIds doc_ids).2.2 =
          (doc_ids.filter (fun p => decide (p ∉ existsIds))).length := by
  intro doc_ids
  induction doc_ids with
  | nil =>
    intro index _
    constructor
    · rw [List.filter_nil]
      exact (map_stampIfMem_eq_self (fun d _ => List.not_mem_nil d.id)).symm
    · rfl
  | cons pid rest ih =>
    intro index hsub
    by_cases hmem : pid ∈ existsIds
    · have hfilter : (pid :: rest).filter (fun p => decide (p ∉ existsIds)) =
          rest.filter (fun p => decide (p ∉ existsIds)) := by
        rw [List.filter_cons]
        simp [hmem]
      have hloop : phase2_default_loop index existsIds (pid :: rest) =
          phase2_default_loop index existsIds rest := by
        rw [phase2_default_loop, if_pos hmem]
      rw [hloop, hfilter]
      exact ih index (fun p hp => hsub p (List.mem_cons_of_mem pid hp))
    · have hpid : pid ∈ index.map Doc.id := hsub pid (List.mem_cons_self pid rest)
      have hfilter : (pid :: rest).filter (fun p => decide (p ∉ existsIds)) =
          pid :: rest.filter (fun p => decide (p ∉ existsIds)) := by
        rw [List.filter_cons]
        simp [hmem]
      have hstep := update_document_mem index pid defaultFields hpid
      have hsub' : ∀ p ∈ rest, p ∈ (index.map
          (fun d => if d.id = pid then applyFields d defaultFields else d)).map Doc.id := by
        intro p hp
        rw [map_g_ids]
        exact hsub p (List.mem_cons_of_mem pid hp)
      obtain ⟨ih1, ih2⟩ := ih _ hsub'
      have hloop : phase2_default_loop index existsIds (pid :: rest) =
          ((phase2_default_loop (index.map
              (fun d => if d.id = pid then applyFields d defaultFields else d))
              existsIds rest).1,
            { doc_id := pid, fields := defaultFields, ok := true } ::
              (phase2_default_loop (index.map
                (fun d => if d.id = pid then applyFields d defaultFields else d))
                existsIds rest).2.1,
            1 + (phase2_default_loop (index.map
              (fun d => if d.id = pid then applyFields d defaultFields else d))
              existsIds rest).2.2) := by
        rw [phase2_default_loop, if_neg hmem, hstep]
        rfl
      rw [hloop, hfilter]
      constructor
      · show (phase2_default_loop _ existsIds rest).1 = _
        rw [ih1, List.map_map]
        refine List.map_congr_left ?_
        intro d _
        simp only [Function.comp_apply]
        by_cases hdp : d.id = pid
        · have happ : applyFields d defaultFields = stampDefaults d := rfl
          rw [if_pos hdp, happ]
          unfold stampIfMem
          have hsid : (stampDefaults d).id = d.id := rfl
          rw [hsid, hdp]
          by_cases hin : pid ∈ rest.filter (fun p => decide (p ∉ existsIds))
          · rw [if_pos hin, if_pos (List.mem_cons_of_mem pid hin)]
            rfl
          · rw [if_neg hin, if_pos (List.mem_cons_self pid _)]
        · rw [if_neg hdp]
          unfold stampIfMem
          by_cases hin : d.id ∈ rest.filter (fun p => decide (p ∉ existsIds))
          · rw [if_pos hin, if_pos (List.mem_cons_of_mem pid hin)]
          · rw [if_neg hin, if_neg ?_]
            intro hcon
            rcases List.mem_cons.mp hcon with h | h
            · exact hdp h
            · exact hin h
      · show 1 + (phase2_default_loop _ existsIds rest).2.2 = _
        rw [ih2, List.length_cons, Nat.add_comm]

end Backfill.InventoryFields

namespace Backfill.InventoryFields

open Backfill

theorem map_filter_comm {α β : Type} (f : α → β) (p : β → Bool) (l : List α) :
    (l.map f).filter p = (l.filter (fun a => p (f a))).map f := by
  induction l with
  | nil => rfl
  | cons a t ih =>
    simp only [List.map_cons, List.filter_cons]
    by_cases h : p (f a) = true
    · rw [if_pos h, if_pos h, List.map_cons, ih]
    · rw [if_neg h, if_neg h, ih]

theorem pairwise_ne_cross {l1 l2 : List String}
    (h : (l1 ++ l2).Pairwise (fun a b => a ≠ b)) : ∀ x ∈ l1, x ∉ l2 := by
  intro x hx hx2
  exact (List.pairwise_append.mp h).2.2 x hx x hx2 rfl

theorem mem_search_page {index : List Doc} {page s : Nat} {d : Doc}
    (hd : d ∈ search_page index page s) : d ∈ index := by
  unfold search_page at hd
  exact List.drop_subset _ index (List.take_subset _ _ hd)

/-- With a positive page size, an empty page means the index is exhausted at
that page. -/
theorem drop_nil_of_empty_page {index : List Doc} {page s : Nat} (hs : 0 < s)
    (hempty : (search_page index page s).isEmpty = true) :
    index.drop (page * s) = [] := by
  unfold search_page at hempty
  rw [List.isEmpty_iff] at hempty
  cases hdl : index.drop (page * s) with
  | nil => rfl
  | cons x xs =>
    rw [hdl] at hempty
    cases s with
    | zero => exact absurd hs (lt_irrefl 0)
    | succ k => exact absurd hempty (List.cons_ne_nil x _)

/-- Pointwise on a page's documents, stamping the page's absent ids is the
same as `defaultIfAbsent`. -/
theorem stamp_slice_eq_default (products : List Row) (hits : List Doc) (d : Doc)
    (hd : d ∈ hits) :
    stampIfMem (((hits.map Doc.id).filter (fun i => decide (i ≠ ""))).filter
        (fun p => decide (p ∉ ids_exists_in_products products
          ((hits.map Doc.id).filter (fun i => decide (i ≠ "")))))) d =
      defaultIfAbsent (products.map Row.id) d := by
  have hmemdoc : d.id ≠ "" → d.id ∈ (hits.map Doc.id).filter (fun i => decide (i ≠ "")) := by
    intro hne
    rw [List.mem_filter]
    exact ⟨List.mem_map_of_mem Doc.id hd, by simp [hne]⟩
  have hex : ∀ p : String, p ∈ ids_exists_in_products products
      ((hits.map Doc.id).filter (fun i => decide (i ≠ ""))) ↔
      p ∈ (hits.map Doc.id).filter (fun i => decide (i ≠ "")) ∧ p ∈ products.map Row.id := by
    intro p
    unfold ids_exists_in_products
    rw [List.mem_filter]
    simp
  unfold stampIfMem defaultIfAbsent
  by_cases habs : d.id = "" ∨ d.id ∈ products.map Row.id
  · rw [if_pos habs, if_neg ?_]
    intro hcon
    rw [List.mem_filter] at hcon
    obtain ⟨hdoc, hnotex⟩ := hcon
    rw [decide_eq_true_eq] at hnotex
    rw [List.mem_filter] at hdoc
    have hne : d.id ≠ "" := by
      have h2 := hdoc.2
      simpa using h2
    have hpid : d.id ∈ products.map Row.id := habs.resolve_left hne
    exact hnotex ((hex d.id).mpr ⟨List.mem_filter.mpr hdoc, hpid⟩)
  · rw [if_neg habs, if_pos ?_]
    push_neg at habs
    obtain ⟨hne, hnpid⟩ := habs
    rw [List.mem_filter]
    refine ⟨hmemdoc hne, ?_⟩
    simp only [decide_eq_true_eq]
    intro hcon
    exact hnpid ((hex d.id).mp hcon).2

end Backfill.InventoryFields

namespace Backfill.InventoryFields

open Backfill

/-- The two checkpoint-relevant components of a page commit, in closed form:
the index gets the page's absent ids stamped, and the counter gains one per
absent id. -/
theorem phase2_batch_eq (w : World) (st : Checkpoint) (page : Nat) (hits : List Doc)
    (hsub : ∀ pid ∈ (hits.map Doc.id).filter (fun i => decide (i ≠ "")),
      pid ∈ w.index.map Doc.id) :
    (phase2_batch w st page hits).1 =
      { w with
        index := w.index.map (stampIfMem
          (((hits.map Doc.id).filter (fun i => decide (i ≠ ""))).filter
            (fun p => decide (p ∉ ids_exists_in_products w.products
              ((hits.map Doc.id).filter (fun i => decide (i ≠ ""))))))),
        checkpoint := { st with
          default_set_count := st.default_set_count +
            ((((hits.map Doc.id).filter (fun i => decide (i ≠ ""))).filter
              (fun p => decide (p ∉ ids_exists_in_products w.products
                ((hits.map Doc.id).filter (fun i => decide (i ≠ "")))))).length),
          last_page := page + 1, batch_no := st.batch_no + 1 } }
    ∧ (phase2_batch w st page hits).2.1 =
      { st with
        default_set_count := st.default_set_count +
          ((((hits.map Doc.id).filter (fun i => decide (i ≠ ""))).filter
            (fun p => decide (p ∉ ids_exists_in_products w.products
              ((hits.map Doc.id).filter (fun i => decide (i ≠ "")))))).length),
        last_page := page + 1, batch_no := st.batch_no + 1 } := by
  obtain ⟨h1, h2⟩ := phase2_default_loop_char
    (ids_exists_in_products w.products ((hits.map Doc.id).filter (fun i => decide (i ≠ ""))))
    ((hits.map Doc.id).filter (fun i => decide (i ≠ ""))) w.index hsub
  constructor
  · simp only [phase2_batch]
    rw [h1, h2]
  · simp only [phase2_batch]
    rw [h2]


theorem pairwise_take_drop_cross {l : List Doc} (n : Nat)
    (h : (l.map Doc.id).Pairwise (fun a b => a ≠ b)) :
    ∀ x ∈ (l.take n).map Doc.id, x ∉ (l.drop n).map Doc.id := by
  have h2 : ((l.take n ++ l.drop n).map Doc.id).Pairwise (fun a b => a ≠ b) := by
    rw [List.take_append_drop]
    exact h
  rw [List.map_append] at h2
  exact pairwise_ne_cross h2

theorem absenteeCount_append (P : List String) (l1 l2 : List Doc) :
    absenteeCount P (l1 ++ l2) = absenteeCount P l1 + absenteeCount P l2 := by
  unfold absenteeCount
  rw [List.filter_append, List.length_append]

theorem absentee_split (P : List String) (l : List Doc) (n : Nat) :
    absenteeCount P l = absenteeCount P (l.take n) + absenteeCount P (l.drop n) := by
  conv_lhs => rw [← List.take_append_drop n l]
  rw [absenteeCount_append]

/-- Assembly step for the phase-2 characterization: stamping one page's
absent ids and then defaulting everything from the next page on equals
defaulting everything from the current page on. -/
theorem stamp_assemble (P : List String) (index : List Doc) (page s : Nat) (A : List String)
    (hids : (index.map Doc.id).Pairwise (fun a b => a ≠ b))
    (habsub : ∀ p ∈ A, p ∈ (search_page index page s).map Doc.id)
    (hpoint : ∀ d ∈ search_page index page s, stampIfMem A d = defaultIfAbsent P d)
    (hcount : A.length = absenteeCount P (search_page index page s)) :
    (index.map (stampIfMem A)).take ((page + 1) * s) ++
        ((index.map (stampIfMem A)).drop ((page + 1) * s)).map (defaultIfAbsent P) =
      index.take (page * s) ++ (index.drop (page * s)).map (defaultIfAbsent P)
    ∧ absenteeCount P ((index.map (stampIfMem A)).drop ((page + 1) * s)) + A.length =
        absenteeCount P (index.drop (page * s)) := by
  have hslice : search_page index page s = (index.drop (page * s)).take s := rfl
  have hD_pair : ((index.drop (page * s)).map Doc.id).Pairwise (fun a b => a ≠ b) :=
    hids.sublist (List.Sublist.map Doc.id (List.drop_sublist (page * s) index))
  have hD2 : index.drop ((page + 1) * s) = (index.drop (page * s)).drop s := by
    rw [List.drop_drop s (page * s) index, Nat.succ_mul]
  -- documents after the current page are untouched by the stamping
  have hnotA_rest : ∀ d ∈ (index.drop (page * s)).drop s, d.id ∉ A := by
    intro d hd hmem
    have hin_take : d.id ∈ ((index.drop (page * s)).take s).map Doc.id := by
      rw [← hslice]
      exact habsub d.id hmem
    have hin_drop : d.id ∈ ((index.drop (page * s)).drop s).map Doc.id :=
      List.mem_map_of_mem Doc.id hd
    exact pairwise_take_drop_cross s hD_pair d.id hin_take hin_drop
  have hF_drop : (index.map (stampIfMem A)).drop ((page + 1) * s) =
      index.drop ((page + 1) * s) := by
    rw [← List.map_drop]
    rw [hD2]
    exact map_stampIfMem_eq_self hnotA_rest
  -- documents before the current page are untouched by the stamping
  have hnotA_take : ∀ d ∈ index.take (page * s), d.id ∉ A := by
    intro d hd hmem
    have hin_take : d.id ∈ (index.take (page * s)).map Doc.id :=
      List.mem_map_of_mem Doc.id hd
    have hin_drop : d.id ∈ (index.drop (page * s)).map Doc.id := by
      have h1 := habsub d.id hmem
      rw [hslice] at h1
      exact (List.Sublist.map Doc.id (List.take_sublist s _)).subset h1
    exact pairwise_take_drop_cross (page * s) hids d.id hin_take hin_drop
  have hF_take : (index.map (stampIfMem A)).take ((page + 1) * s) =
      index.take (page * s) ++
        ((index.drop (page * s)).take s).map (defaultIfAbsent P) := by
    rw [← List.map_take, Nat.succ_mul, List.take_add, List.map_append,
      map_stampIfMem_eq_self hnotA_take]
    congr 1
    rw [← hslice]
    exact List.map_congr_left hpoint
  constructor
  · rw [hF_take, hF_drop, hD2, List.append_assoc, ← List.map_append,
      List.take_append_drop]
  · rw [hF_drop, hD2, hcount, hslice]
    rw [absentee_split P (index.drop (page * s)) s]
    exact Nat.add_comm _ _
end Backfill.InventoryFields

namespace Backfill.InventoryFields

open Backfill


/-- The number of absent ids collected from a page equals the number of its
absentee documents. -/
theorem absent_ids_length (products : List Row) (hits : List Doc) :
    ((((hits.map Doc.id).filter (fun i => decide (i ≠ ""))).filter
      (fun p => decide (p ∉ ids_exists_in_products products
        ((hits.map Doc.id).filter (fun i => decide (i ≠ "")))))).length) =
      absenteeCount (products.map Row.id) hits := by
  rw [List.filter_filter]
  rw [map_filter_comm]
  rw [List.length_map]
  unfold absenteeCount
  congr 1
  refine List.filter_congr ?_
  intro d hd
  by_cases h0 : d.id = ""
  · have h1 : decide (d.id ≠ "") = false := by simp [h0]
    have h2 : decide (¬(d.id = "" ∨ d.id ∈ products.map Row.id)) = false := by simp [h0]
    rw [h1, Bool.and_false, h2]
  · have hdoc : d.id ∈ (hits.map Doc.id).filter (fun i => decide (i ≠ "")) :=
      List.mem_filter.mpr ⟨List.mem_map_of_mem Doc.id hd, by simp [h0]⟩
    have hiff : (d.id ∈ ids_exists_in_products products
        ((hits.map Doc.id).filter (fun i => decide (i ≠ "")))) ↔
        d.id ∈ products.map Row.id := by
      unfold ids_exists_in_products
      rw [List.mem_filter]
      constructor
      · intro h
        have h2 := h.2
        simpa using h2
      · intro h
        exact ⟨hdoc, by simpa using h⟩
    have h1 : decide (d.id ≠ "") = true := by simp [h0]
    rw [h1, Bool.and_true]
    refine decide_eq_decide.mpr ?_
    rw [hiff]
    constructor
    · intro hnp hor
      rcases hor with h | h
      · exact h0 h
      · exact hnp h
    · intro hn hp
      exact hn (Or.inr hp)

/-- Characterization of the phase-2 loop from any page: with enough fuel,
every document at or after the start page gets `defaultIfAbsent` applied,
earlier documents are untouched, the counter gains exactly the number of
stamped absentees, the source table is unchanged, and the persisted
checkpoint's page bound covers the whole index. -/
theorem run_phase2_loop_char (fuel : Nat) :
    ∀ (w : World) (st : Checkpoint) (page : Nat),
      0 < w.page_size →
      (w.index.map Doc.id).Pairwise (fun a b => a ≠ b) →
      w.index.length ≤ page * w.page_size + fuel * w.page_size →
      st.last_page = page →
      st.default_set_count = w.checkpoint.default_set_count →
      page ≤ w.checkpoint.last_page →
      (run_phase2_loop w st page fuel).1.index =
          w.index.take (page * w.page_size) ++
            (w.index.drop (page * w.page_size)).map (defaultIfAbsent (w.products.map Row.id))
        ∧ (run_phase2_loop w st page fuel).1.products = w.products
        ∧ (run_phase2_loop w st page fuel).1.page_size = w.page_size
        ∧ (run_phase2_loop w st page fuel).1.checkpoint.default_set_count =
            w.checkpoint.default_set_count +
              absenteeCount (w.products.map Row.id) (w.index.drop (page * w.page_size))
        ∧ w.index.length ≤
            (run_phase2_loop w st page fuel).1.checkpoint.last_page * w.page_size := by
  induction fuel with
  | zero =>
    intro w st page hps hids hlen hst hdef hcp
    have hlen' : w.index.length ≤ page * w.page_size := by simpa using hlen
    have hdrop : w.index.drop (page * w.page_size) = [] := List.drop_eq_nil_of_le hlen'
    refine ⟨?_, rfl, rfl, ?_, ?_⟩
    · show w.index = _
      rw [hdrop, List.take_of_length_le hlen', List.map_nil, List.append_nil]
    · show w.checkpoint.default_set_count = _
      rw [hdrop]
      rfl
    · calc w.index.length ≤ page * w.page_size := hlen'
        _ ≤ w.checkpoint.last_page * w.page_size := Nat.mul_le_mul_right _ hcp
  | succ fuel ih =>
    intro w st page hps hids hlen hst hdef hcp
    rw [run_phase2_loop]
    by_cases hempty : (search_page w.index page w.page_size).isEmpty = true
    · rw [if_pos hempty]
      have hdrop : w.index.drop (page * w.page_size) = [] :=
        drop_nil_of_empty_page hps hempty
      have hlen' : w.index.length ≤ page * w.page_size := by
        have hld := congrArg List.length hdrop
        rw [List.length_drop, List.length_nil] at hld
        omega
      refine ⟨?_, rfl, rfl, ?_, ?_⟩
      · show w.index = _
        rw [hdrop, List.take_of_length_le hlen', List.map_nil, List.append_nil]
      · show w.checkpoint.default_set_count = _
        rw [hdrop]
        rfl
      · calc w.index.length ≤ page * w.page_size := hlen'
          _ ≤ w.checkpoint.last_page * w.page_size := Nat.mul_le_mul_right _ hcp
    · rw [if_neg hempty]
      have hsub : ∀ pid ∈ ((search_page w.index page w.page_size).map Doc.id).filter
          (fun i => decide (i ≠ "")), pid ∈ w.index.map Doc.id := by
        intro pid hp
        have hp' : pid ∈ (search_page w.index page w.page_size).map Doc.id :=
          (List.filter_sublist _).subset hp
        obtain ⟨d, hd, hdid⟩ := List.mem_map.mp hp'
        rw [← hdid]
        exact List.mem_map_of_mem Doc.id (mem_search_page hd)
      obtain ⟨hb1, hb2⟩ := phase2_batch_eq w st page (search_page w.index page w.page_size) hsub
      have hBindex : (phase2_batch w st page (search_page w.index page w.page_size)).1.index =
          w.index.map (stampIfMem
            ((((search_page w.index page w.page_size).map Doc.id).filter
              (fun i => decide (i ≠ ""))).filter
              (fun p => decide (p ∉ ids_exists_in_products w.products
                (((search_page w.index page w.page_size).map Doc.id).filter
                  (fun i => decide (i ≠ ""))))))) := by
        rw [hb1]
      have hBproducts : (phase2_batch w st page
          (search_page w.index page w.page_size)).1.products = w.products := by
        rw [hb1]
      have hBpagesize : (phase2_batch w st page
          (search_page w.index page w.page_size)).1.page_size = w.page_size := by
        rw [hb1]
      have hBcpdef : (phase2_batch w st page
          (search_page w.index page w.page_size)).1.checkpoint.default_set_count =
          st.default_set_count +
            ((((search_page w.index page w.page_size).map Doc.id).filter
              (fun i => decide (i ≠ ""))).filter
              (fun p => decide (p ∉ ids_exists_in_products w.products
                (((search_page w.index page w.page_size).map Doc.id).filter
                  (fun i => decide (i ≠ "")))))).length := by
        rw [hb1]
      have hSCdef : (phase2_batch w st page
          (search_page w.index page w.page_size)).2.1.default_set_count =
          st.default_set_count +
            ((((search_page w.index page w.page_size).map Doc.id).filter
              (fun i => decide (i ≠ ""))).filter
              (fun p => decide (p ∉ ids_exists_in_products w.products
                (((search_page w.index page w.page_size).map Doc.id).filter
                  (fun i => decide (i ≠ "")))))).length := by
        rw [hb2]
      have hSClast : (phase2_batch w st page
          (search_page w.index page w.page_size)).2.1.last_page = page + 1 := by
        rw [hb2]
      have hmapids : ((w.index.map (stampIfMem
          ((((search_page w.index page w.page_size).map Doc.id).filter
            (fun i => decide (i ≠ ""))).filter
            (fun p => decide (p ∉ ids_exists_in_products w.products
              (((search_page w.index page w.page_size).map Doc.id).filter
                (fun i => decide (i ≠ "")))))))).map Doc.id) = w.index.map Doc.id := by
        rw [List.map_map]
        refine List.map_congr_left ?_
        intro d _
        exact stampIfMem_id _ d
      have habsub : ∀ p ∈ (((search_page w.index page w.page_size).map Doc.id).filter
          (fun i => decide (i ≠ ""))).filter
            (fun p => decide (p ∉ ids_exists_in_products w.products
              (((search_page w.index page w.page_size).map Doc.id).filter
                (fun i => decide (i ≠ ""))))),
          p ∈ (search_page w.index page w.page_size).map Doc.id := by
        intro p hp
        exact (List.filter_sublist _).subset ((List.filter_sublist _).subset hp)
      obtain ⟨hasm1, hasm2⟩ := stamp_assemble (w.products.map Row.id) w.index page w.page_size
        _ hids habsub
        (fun d hd => stamp_slice_eq_default w.products (search_page w.index page w.page_size) d hd)
        (absent_ids_length w.products (search_page w.index page w.page_size))
      obtain ⟨ihA, ihB, ihC, ihD, ihE⟩ := ih
        (phase2_batch w st page (search_page w.index page w.page_size)).1
        (phase2_batch w st page (search_page w.index page w.page_size)).2.1
        (page + 1)
        (by rw [hBpagesize]; exact hps)
        (by rw [hBindex, hmapids]; exact hids)
        (by
          rw [hBindex, hBpagesize, List.length_map]
          rw [Nat.succ_mul] at hlen ⊢
          omega)
        hSClast
        (by rw [hSCdef, hBcpdef])
        (by
          have : (phase2_batch w st page
              (search_page w.index page w.page_size)).1.checkpoint.last_page = page + 1 := by
            rw [hb1]
          rw [this])
      refine ⟨?_, ?_, ?_, ?_, ?_⟩
      · show (run_phase2_loop (phase2_batch w st page (search_page w.index page w.page_size)).1
          (phase2_batch w st page (search_page w.index page w.page_size)).2.1
          (page + 1) fuel).1.index = _
        rw [ihA, hBindex, hBproducts, hBpagesize]
        exact hasm1
      · show (run_phase2_loop (phase2_batch w st page (search_page w.index page w.page_size)).1
          (phase2_batch w st page (search_page w.index page w.page_size)).2.1
          (page + 1) fuel).1.products = _
        rw [ihB]
        exact hBproducts
      · show (run_phase2_loop (phase2_batch w st page (search_page w.index page w.page_size)).1
          (phase2_batch w st page (search_page w.index page w.page_size)).2.1
          (page + 1) fuel).1.page_size = _
        rw [ihC]
        exact hBpagesize
      · show (run_phase2_loop (phase2_batch w st page (search_page w.index page w.page_size)).1
          (phase2_batch w st page (search_page w.index page w.page_size)).2.1
          (page + 1) fuel).1.checkpoint.default_set_count = _
        rw [ihD, hBcpdef, hBproducts, hBindex, hBpagesize, hdef]
        omega
      · show w.index.length ≤ (run_phase2_loop
          (phase2_batch w st page (search_page w.index page w.page_size)).1
          (phase2_batch w st page (search_page w.index page w.page_size)).2.1
          (page + 1) fuel).1.checkpoint.last_page * w.page_size
        rw [hBindex, hBpagesize, List.length_map] at ihE
        exact ihE

end Backfill.InventoryFields

namespace Backfill.InventoryFields

open Backfill

/-! ## C6 — reconciliation idempotence -/

/-- C6: over an unchanged index/source pair, one complete reconciliation
invocation stamps exactly the index documents absent from the source with the
default field values and increments the default-set counter by exactly their
number; a second invocation (which resumes from the persisted page cursor)
increments the counter by 0, changes no document and saves no checkpoint, so
the counters are identical; and the resulting index state is a fixed point of
the per-document stamping. -/
theorem c6_reconciliation_idempotence (w : World) (fuel fuel2 : Nat)
    (hps : 0 < w.page_size)
    (hids : (w.index.map Doc.id).Pairwise (fun a b => a ≠ b))
    (hpage0 : w.checkpoint.last_page = 0)
    (hlen : w.index.length ≤ fuel * w.page_size) :
    (run_phase2 (run_phase2 w fuel).1 fuel2).1.checkpoint.default_set_count =
        (run_phase2 w fuel).1.checkpoint.default_set_count
    ∧ (run_phase2 (run_phase2 w fuel).1 fuel2).1.index = (run_phase2 w fuel).1.index
    ∧ (run_phase2 (run_phase2 w fuel).1 fuel2).2.2.saves = []
    ∧ (run_phase2 w fuel).1.index = w.index.map (defaultIfAbsent (w.products.map Row.id))
    ∧ ((run_phase2 w fuel).1.index).map (defaultIfAbsent (w.products.map Row.id)) =
        (run_phase2 w fuel).1.index
    ∧ (run_phase2 w fuel).1.checkpoint.default_set_count =
        w.checkpoint.default_set_count + absenteeCount (w.products.map Row.id) w.index := by
  have hp0 : (run_phase2_load w.checkpoint).last_page = 0 := hpage0
  have hlen1 : w.index.length ≤ (run_phase2_load w.checkpoint).last_page * w.page_size +
      fuel * w.page_size := by
    rw [hp0, Nat.zero_mul, Nat.zero_add]
    exact hlen
  obtain ⟨hA1, hB1, hC1, hD1, hE1⟩ := run_phase2_loop_char fuel w
    (run_phase2_load w.checkpoint) ((run_phase2_load w.checkpoint).last_page)
    hps hids hlen1 rfl rfl (le_refl _)
  rw [show ((run_phase2_load w.checkpoint).last_page * w.page_size) = 0 from
    by rw [hp0, Nat.zero_mul]] at hA1 hD1
  rw [List.take_zero, List.drop_zero, List.nil_append] at hA1
  rw [List.drop_zero] at hD1
  -- the first invocation stamps every absentee and counts them
  have hfix0 : (w.index.map (defaultIfAbsent (w.products.map Row.id))).map
      (defaultIfAbsent (w.products.map Row.id)) =
      w.index.map (defaultIfAbsent (w.products.map Row.id)) := by
    rw [List.map_map]
    refine List.map_congr_left ?_
    intro d _
    exact defaultIfAbsent_idem (w.products.map Row.id) d
  have hfix : ((run_phase2 w fuel).1.index).map (defaultIfAbsent (w.products.map Row.id)) =
      (run_phase2 w fuel).1.index := by
    show ((run_phase2_loop w (run_phase2_load w.checkpoint)
        ((run_phase2_load w.checkpoint).last_page) fuel).1.index).map _ =
      (run_phase2_loop w (run_phase2_load w.checkpoint)
        ((run_phase2_load w.checkpoint).last_page) fuel).1.index
    rw [hA1]
    exact hfix0
  -- the second invocation starts past the end of the index
  have hR1len : (run_phase2_loop w (run_phase2_load w.checkpoint)
      ((run_phase2_load w.checkpoint).last_page) fuel).1.index.length = w.index.length := by
    rw [hA1, List.length_map]
  have hboundL : (run_phase2_loop w (run_phase2_load w.checkpoint)
      ((run_phase2_load w.checkpoint).last_page) fuel).1.index.length ≤
      (run_phase2_loop w (run_phase2_load w.checkpoint)
        ((run_phase2_load w.checkpoint).last_page) fuel).1.checkpoint.last_page *
        (run_phase2_loop w (run_phase2_load w.checkpoint)
          ((run_phase2_load w.checkpoint).last_page) fuel).1.page_size := by
    rw [hR1len, hC1]
    exact hE1
  have hbound : (run_phase2 w fuel).1.index.length ≤
      (run_phase2_load (run_phase2 w fuel).1.checkpoint).last_page *
        (run_phase2 w fuel).1.page_size := hboundL
  have hempty2 : (search_page (run_phase2 w fuel).1.index
      (run_phase2_load (run_phase2 w fuel).1.checkpoint).last_page
      (run_phase2 w fuel).1.page_size).isEmpty = true := by
    unfold search_page
    have hdrop : (run_phase2 w fuel).1.index.drop
        ((run_phase2_load (run_phase2 w fuel).1.checkpoint).last_page *
          (run_phase2 w fuel).1.page_size) = [] :=
      List.drop_eq_nil_of_le hbound
    rw [hdrop, List.take_nil]
    rfl
  have hR2w : (run_phase2 (run_phase2 w fuel).1 fuel2).1 = (run_phase2 w fuel).1 := by
    cases fuel2 with
    | zero => rfl
    | succ k =>
      show (run_phase2_loop (run_phase2 w fuel).1
        (run_phase2_load (run_phase2 w fuel).1.checkpoint)
        (run_phase2_load (run_phase2 w fuel).1.checkpoint).last_page (k + 1)).1 = _
      rw [run_phase2_loop, if_pos hempty2]
  have hR2saves : (run_phase2 (run_phase2 w fuel).1 fuel2).2.2.saves = [] := by
    cases fuel2 with
    | zero => rfl
    | succ k =>
      show (run_phase2_loop (run_phase2 w fuel).1
        (run_phase2_load (run_phase2 w fuel).1.checkpoint)
        (run_phase2_load (run_phase2 w fuel).1.checkpoint).last_page (k + 1)).2.2.saves = _
      rw [run_phase2_loop, if_pos hempty2]
  refine ⟨by rw [hR2w], by rw [hR2w], hR2saves, ?_, hfix, ?_⟩
  · exact hA1
  · exact hD1

/-- Concrete data for the C6 witness: the source holds only `a`; the index
holds `a` and the source-absent `f`. -/
def c6World : World :=
  { products := [{ id := "a", deleted_at := some 0, created_at := Value.int 1 }],
    index := [{ id := "a", created_at := some 1, deleted_at := some 0 },
              { id := "f", created_at := Option.none, deleted_at := Option.none }],
    checkpoint := { phase := 2, last_id := "a", last_page := 0, batch_no := 1,
                    total_processed := 1, updated_supabase := 0, updated_typesense := 1,
                    default_set_count := 0 },
    sb_update_fails := fun _ => false, batch_size := 10, page_size := 250 }

/-- C6 (witness): the theorem applied to the two-document index with one
source-absent document `f`. -/
theorem c6_reconciliation_idempotence_witness :
    (run_phase2 (run_phase2 c6World 1).1 1).1.checkpoint.default_set_count =
        (run_phase2 c6World 1).1.checkpoint.default_set_count
    ∧ (run_phase2 (run_phase2 c6World 1).1 1).1.index = (run_phase2 c6World 1).1.index
    ∧ (run_phase2 (run_phase2 c6World 1).1 1).2.2.saves = []
    ∧ (run_phase2 c6World 1).1.index =
        c6World.index.map (defaultIfAbsent (c6World.products.map Row.id))
    ∧ ((run_phase2 c6World 1).1.index).map (defaultIfAbsent (c6World.products.map Row.id)) =
        (run_phase2 c6World 1).1.index
    ∧ (run_phase2 c6World 1).1.checkpoint.default_set_count =
        c6World.checkpoint.default_set_count +
          absenteeCount (c6World.products.map Row.id) c6World.index :=
  c6_reconciliation_idempotence c6World 1 1 (by decide) (by decide) (by decide) (by decide)

end Backfill.InventoryFields
